import Mathlib

/-!
Verification of the design-validation subsystem of cutlist-web
(`backend/app/services/test_service.py`, catalog defaults from
`backend/app/config.py`).

Shallow embedding conventions:
* Python floats are modelled as rationals (`ℚ`); `%` on floats is `pyMod`
  (result has the sign of the divisor), `round` is round-half-to-even.
* Solid geometry values are opaque (a type parameter `S`); every call into
  the CadQuery/OCP geometry kernel is a field of a `Kernel S` record.
  A kernel call that can raise a Python exception returns `Except String`
  (carrying the exception text) or `Option` where the code swallows the
  text; catching an exception in Python corresponds to consuming the
  `.error` / `none` branch here.
* Fixed format strings are reproduced verbatim; numeric formatting of
  floats (`:.1f`, `repr`) is abstracted by `fmtFixed`, a fixed-point
  rendering of rationals with round-half-to-even.
-/

/-- Python float modulo: the result has the sign of the divisor.
`(length - min_l) % inc` in `_is_valid_beam_length` uses this. -/
def pyMod (a b : ℚ) : ℚ := a - b * (⌊a / b⌋ : ℤ)

/-- Round to an integer, halves to even — the behaviour of Python
builtin `round`. -/
def roundHalfEvenZ (x : ℚ) : ℤ :=
  let f : ℤ := ⌊x⌋
  let r : ℚ := x - f
  if r < 1/2 then f
  else if 1/2 < r then f + 1
  else if f % 2 = 0 then f else f + 1

/-- Python `round(x, n)` on the rational model of a float. -/
def pyRound (ndigits : ℕ) (x : ℚ) : ℚ :=
  (roundHalfEvenZ (x * (10 : ℚ) ^ ndigits) : ℤ) / (10 : ℚ) ^ ndigits

/-- `round(x, 2)` as used all over the test service. -/
def pyRound2 (x : ℚ) : ℚ := pyRound 2 x

/-- Pad a decimal string with leading zeros to width `w`. -/
def padZeros (w : ℕ) (s : String) : String :=
  ((List.replicate (w - s.length) ("0")).foldl (· ++ ·) ("")) ++ s

/-- Fixed-point rendering of a rational with `prec` digits, rounding
half to even: the model of Python `:.Nf` formatting. -/
def fmtFixed (prec : ℕ) (x : ℚ) : String :=
  let scaled : ℤ := roundHalfEvenZ (x * (10 : ℚ) ^ prec)
  let sign := if scaled < 0 then ("-") else ("")
  let a := scaled.natAbs
  let ip := a / 10 ^ prec
  let fp := a % 10 ^ prec
  if prec = 0 then sign ++ toString ip
  else sign ++ toString ip ++ (".") ++ padZeros prec (toString fp)

/-- Minimum of a list of rationals (0 on the empty list, which callers
never hit: the Python loops run over non-empty part lists). -/
def listMin : List ℚ → ℚ
  | [] => 0
  | x :: t => t.foldl min x

/-- Maximum of a list of rationals (0 on the empty list). -/
def listMax : List ℚ → ℚ
  | [] => 0
  | x :: t => t.foldl max x

/-! ## Result data model (`TestStatus`, `TestResult`, `TestSuiteResult`) -/

/-- `class TestStatus(str, Enum)`. -/
inductive TestStatus where
  | passed
  | failed
  | skipped
  | error
deriving DecidableEq

/-- One entry of the `intersections` details list built by
`test_no_intersections`. -/
structure IsectInfo where
  part1 : ℕ
  part2 : ℕ
  name1 : String
  name2 : String
  volume : ℚ
deriving DecidableEq

/-- Structured `details` payloads produced by the individual tests
(modelling the per-test `details` dictionaries). -/
inductive Details where
  | libraryReport (violations : List String) (partsAnalyzed : ℕ)
      (summary : List (String × ℕ))
  | intersectionsFound (isects : List IsectInfo) (descriptions : List String)
      (pairsChecked : ℕ)
  | pairsOnly (pairsChecked : ℕ)
  | componentCount (k : ℕ)
  | disconnectedParts (names : List String)
  | stabilityReport (com : List ℚ) (xRange : List ℚ) (yRange : List ℚ)
      (margin : ℚ)
deriving DecidableEq

/-- `@dataclass class TestResult`. -/
structure TestResult where
  name : String
  status : TestStatus
  message : String
  details : Option Details
  long_message : Option String
deriving DecidableEq

/-- `@dataclass class TestSuiteResult`. -/
structure TestSuiteResult where
  passed : ℕ
  failed : ℕ
  skipped : ℕ
  errors : ℕ
  tests : List TestResult
deriving DecidableEq

/-- The `success` entry of `TestSuiteResult.to_dict`:
`self.failed == 0 and self.errors == 0`. -/
def suiteSuccess (r : TestSuiteResult) : Bool :=
  r.failed == 0 && r.errors == 0

/-- `sum(1 for t in tests if t.status == st)`. -/
def countStatus (st : TestStatus) (tests : List TestResult) : ℕ :=
  tests.countP (fun t => t.status == st)

/-! ## Parts catalog (`config.py` parts library) and the classifier -/

/-- A beam entry of the parts library. The length fields are read with
`dict.get` defaults (100 / 500 / 50) in `_is_valid_beam_length`, hence
`Option`. -/
structure BeamDef where
  name : String
  width : ℚ
  height : ℚ
  min_length : Option ℚ
  max_length : Option ℚ
  length_increment : Option ℚ
deriving DecidableEq

/-- The plywood entry; every field is read with a `dict.get` default
(7 / 500 / 500). -/
structure PlywoodDef where
  thickness : Option ℚ
  max_width : Option ℚ
  max_height : Option ℚ
deriving DecidableEq

/-- The parts library; `plywood = none` models an absent (or empty,
hence falsy) `plywood` entry. -/
structure PartsLibrary where
  beams : List BeamDef
  plywood : Option PlywoodDef
deriving DecidableEq

/-- The first default beam of `config.py`. -/
def beam28x28 : BeamDef where
  name := ("beam_28x28")
  width := 28
  height := 28
  min_length := some 100
  max_length := some 500
  length_increment := some 50

/-- The second default beam of `config.py`. -/
def beam48x24 : BeamDef where
  name := ("beam_48x24")
  width := 48
  height := 24
  min_length := some 100
  max_length := some 500
  length_increment := some 50

/-- The default parts library hard-coded in `config.py`
(`_load_parts_library` fallback). -/
def defaultPartsLibrary : PartsLibrary where
  beams := [beam28x28, beam48x24]
  plywood := some { thickness := some 7, max_width := some 500, max_height := some 500 }

/-- The tagged classification outcome of `_classify_part` (the three
shapes of dictionary it can return). -/
inductive Classification where
  | beam (typeName : String) (cross_section : ℚ × ℚ) (length : ℚ)
      (valid_length : Bool) (beam_def : BeamDef)
  | plywood (thickness width height : ℚ) (valid_size : Bool)
  | unknown (dimensions : ℚ × ℚ × ℚ)
deriving DecidableEq

/-- `_is_valid_beam_length(length, beam_def, tolerance=1.0)`. -/
def is_valid_beam_length (len : ℚ) (b : BeamDef) : Bool :=
  let tol : ℚ := 1
  let min_l := b.min_length.getD 100
  let max_l := b.max_length.getD 500
  let inc := b.length_increment.getD 50
  if len < min_l - tol ∨ len > max_l + tol then false
  else
    let remainder := pyMod (len - min_l) inc
    decide (remainder ≤ tol ∨ remainder ≥ inc - tol)

/-- The per-beam match test of the `_classify_part` loop: the sorted
cross-section `(w, h)` matches the two smallest dimensions within the
1.0mm tolerance. -/
def beamMatches (d0 d1 : ℚ) (b : BeamDef) : Bool :=
  decide (|d0 - min b.width b.height| ≤ 1 ∧ |d1 - max b.width b.height| ≤ 1)

/-- The `for beam in parts_lib.get('beams', [])` loop of
`_classify_part`: first matching entry wins. -/
def classifyBeams (d0 d1 d2 : ℚ) : List BeamDef → Option Classification
  | [] => none
  | b :: rest =>
    if beamMatches d0 d1 b then
      some (Classification.beam b.name (b.width, b.height) d2
        (is_valid_beam_length d2 b) b)
    else classifyBeams d0 d1 d2 rest

/-- `_classify_part(sorted_dims)` over an explicit parts library
(the Python code reads it from `get_settings().parts_library`). -/
def classify_part (lib : PartsLibrary) (dims : ℚ × ℚ × ℚ) : Classification :=
  match classifyBeams dims.1 dims.2.1 dims.2.2 lib.beams with
  | some c => c
  | none =>
    match lib.plywood with
    | some pw =>
      if |dims.1 - pw.thickness.getD 7| ≤ 1/2 then
        Classification.plywood dims.1 dims.2.1 dims.2.2
          (decide (dims.2.1 ≤ pw.max_width.getD 500 ∧ dims.2.2 ≤ pw.max_height.getD 500))
      else Classification.unknown dims
    | none => Classification.unknown dims

/-! ## Geometry kernel interface and the scene model -/

/-- A point (`solid.Center()`). -/
structure Point3 where
  x : ℚ
  y : ℚ
  z : ℚ
deriving DecidableEq

/-- An axis-aligned bounding box (`solid.BoundingBox()`). -/
structure BBox where
  xmin : ℚ
  xmax : ℚ
  ymin : ℚ
  ymax : ℚ
  zmin : ℚ
  zmax : ℚ
deriving DecidableEq

/-- The geometry-kernel collaborator: every CadQuery/OCP call the test
service makes on opaque solids of type `S`.  `Except String` carries the
exception text of a raising call; `Option` models calls whose failure
text the code discards. -/
structure Kernel (S : Type) where
  /-- `_get_oriented_dims` (incl. its axis-aligned fallback): sorted
  dimensions, or `none` when even the fallback raised. -/
  dims : S → Option (ℚ × ℚ × ℚ)
  /-- `solid.Volume()`; `none` models a raising call (swallowed by
  `_get_solid_volume`). -/
  volume : S → Option ℚ
  /-- `solid.Center()`; `.error txt` models a raising call. -/
  center : S → Except String Point3
  /-- `solid.BoundingBox()`; `.error txt` models a raising call. -/
  bbox : S → Except String BBox
  /-- `_compute_intersection`: the boolean intersection solid, `none`
  when there is no intersection or the computation failed (the function
  catches every exception and returns `None`). -/
  intersect : S → S → Option S
  /-- `BRepExtrema_DistShapeShape` minimum distance; `none` when the
  call raises or `IsDone()` is false. -/
  dist : S → S → Option ℚ

/-- One extracted part: the `{'solid': ..., 'name': ...}` dict built by
`_extract_solids`. -/
structure NamedPart (S : Type) where
  name : String
  solid : S
deriving DecidableEq

/-- `_get_solid_volume(solid)`: the volume, or `0.0` when the kernel
call raises. -/
def get_solid_volume {S : Type} (K : Kernel S) (s : S) : ℚ :=
  (K.volume s).getD 0

/-- A duck-typed value sitting in a Workplane (`obj.val()` result or a
member of `result.vals()`): it may expose `Solids()`, or just be a bare
shape, or expose neither attribute. -/
inductive ShapeVal (S : Type) where
  /-- has a callable `Solids()`; the payload of an empty list means the
  value itself is appended as the part. -/
  | hasSolids (self : S) (solids : List S)
  /-- no `Solids()` but shape-like (the `BoundingBox` probe in the
  Assembly branch, the `wrapped` probe in the Workplane branch). -/
  | bareShape (self : S)
  /-- neither attribute: the code appends nothing for it. -/
  | neither
deriving DecidableEq

/-- The duck-typed `obj` of an Assembly node (`child.obj`). -/
inductive NodeObj (S : Type) where
  /-- `obj.val()` is callable; `.error` = the call raised — caught by
  the per-node handler at the end of the Workplane branch. -/
  | workplane (v : Except String (ShapeVal S))
  /-- `obj.Solids()` is callable (no `val`); a raising call here is NOT
  wrapped per-node: it escapes to the outer handler of
  `_extract_solids`, aborting the loop. -/
  | solidsObj (self : S) (solids : Except String (List S))
  /-- only `BoundingBox`: appended directly. -/
  | bboxObj (self : S)

/-- One Assembly child node: its optional solid payload and the net
effect of `apply_location_to_solid` with its `loc` (that helper catches
its own exceptions, so it is modelled as a total transform). -/
structure AsmNode (S : Type) where
  obj : Option (NodeObj S)
  loc : S → S

/-- The opaque scene value bound to `result` by the executed code,
resolved into the five duck-typing cases of `_extract_solids`. -/
inductive Scene (S : Type) where
  /-- Case 1: Assembly (`objects` + `toCompound`).  `compound` is the
  solids list of the `toCompound()` fallback, `.error` = that call
  raised (caught locally). -/
  | assembly (objects : List (String × AsmNode S))
      (compound : Except String (List S))
  /-- Case 2: Workplane; `.error` = `result.vals()` raised (escapes to
  the outer handler with nothing extracted yet). -/
  | workplaneScene (vals : Except String (List (ShapeVal S)))
  /-- Cases 3/4: a compound-like value whose solids list is read
  directly; `.error` = the call raised. -/
  | compoundScene (solids : Except String (List S))
  /-- Case 5: a bare solid (`BoundingBox` attribute probe). -/
  | directSolid (s : S)
  /-- Unrecognized type: only a warning is logged. -/
  | unknownScene

/-- Parts contributed by one `ShapeVal` under the multi-solid naming
rule: `name_i` suffixes only when more than one solid came out. -/
def shapeValParts {S : Type} (nm : String) (loc : S → S) :
    ShapeVal S → List (NamedPart S)
  | ShapeVal.hasSolids self solids =>
    match solids with
    | [] => [⟨nm, loc self⟩]
    | _ =>
      solids.enum.map (fun is =>
        ⟨if solids.length > 1 then nm ++ ("_") ++ toString (is.1 + 1) else nm,
         loc is.2⟩)
  | ShapeVal.bareShape self => [⟨nm, loc self⟩]
  | ShapeVal.neither => []

/-- Parts contributed by one Assembly node, or `.error` when an
unhandled exception escapes the node (the `obj.Solids()` case). -/
def nodeParts {S : Type} (nm : String) (nd : AsmNode S) :
    Except Unit (List (NamedPart S)) :=
  match nd.obj with
  | none => Except.ok []
  | some (NodeObj.workplane v) =>
    match v with
    | Except.error _ => Except.ok []
    | Except.ok sv => Except.ok (shapeValParts nm nd.loc sv)
  | some (NodeObj.solidsObj self solids) =>
    match solids with
    | Except.error _ => Except.error ()
    | Except.ok l => Except.ok (shapeValParts nm nd.loc (ShapeVal.hasSolids self l))
  | some (NodeObj.bboxObj self) => Except.ok [⟨nm, nd.loc self⟩]

/-- The `for obj_name, obj_asm in objects_dict.items()` loop; the `Bool`
records whether an exception aborted the loop (jumping to the outer
handler, which still returns the parts accumulated so far). -/
def extractAsmLoop {S : Type} :
    List (String × AsmNode S) → List (NamedPart S) × Bool
  | [] => ([], false)
  | (nm, nd) :: rest =>
    match nodeParts nm nd with
    | Except.error _ => ([], true)
    | Except.ok ps =>
      let r := extractAsmLoop rest
      (ps ++ r.1, r.2)

/-- Synthetic `part_1, part_2, ...` naming for an undifferentiated
solids list. -/
def syntheticParts {S : Type} (solids : List S) : List (NamedPart S) :=
  solids.enum.map (fun is => ⟨("part_") ++ toString (is.1 + 1), is.2⟩)

/-- Case 2 body: the Workplane `part_idx` loop. -/
def workplaneParts {S : Type} : List (ShapeVal S) → ℕ → List (NamedPart S)
  | [], _ => []
  | ShapeVal.hasSolids _ (s :: ss) :: rest, idx =>
    syntheticPartsFrom (s :: ss) idx ++
      workplaneParts rest (idx + (s :: ss).length)
  | ShapeVal.hasSolids self [] :: rest, idx =>
    ⟨("part_") ++ toString (idx + 1), self⟩ :: workplaneParts rest (idx + 1)
  | ShapeVal.bareShape self :: rest, idx =>
    ⟨("part_") ++ toString (idx + 1), self⟩ :: workplaneParts rest (idx + 1)
  | ShapeVal.neither :: rest, idx => workplaneParts rest idx
where
  /-- `part_k` names continuing from a running index. -/
  syntheticPartsFrom (solids : List S) (idx : ℕ) : List (NamedPart S) :=
    solids.enum.map (fun is => ⟨("part_") ++ toString (idx + is.1 + 1), is.2⟩)

/-- `_extract_solids(result)`: total — extraction never raises; every
failure path returns whatever parts were accumulated (possibly `[]`). -/
def extract_solids {S : Type} : Scene S → List (NamedPart S)
  | Scene.assembly objs comp =>
    let r := extractAsmLoop objs
    if r.2 then r.1
    else if r.1.isEmpty then
      match comp with
      | Except.ok solids => syntheticParts solids
      | Except.error _ => []
    else r.1
  | Scene.workplaneScene vals =>
    match vals with
    | Except.error _ => []
    | Except.ok vs => workplaneParts vs 0
  | Scene.compoundScene solids =>
    match solids with
    | Except.ok l => syntheticParts l
    | Except.error _ => []
  | Scene.directSolid s => [⟨("part_1"), s⟩]
  | Scene.unknownScene => []

/-! ## Pairwise intersection check (`test_no_intersections`) -/

/-- Quote a name the way the f-strings do. -/
def quoteS (s : String) : String := ("\x27") ++ s ++ ("\x27")

/-- `_compute_intersection(solid1, solid2)` (all exception handling is
inside the kernel call model). -/
def compute_intersection {S : Type} (K : Kernel S) (s1 s2 : S) : Option S :=
  K.intersect s1 s2

/-- The `for i in range(len(parts)): for j in range(i + 1, len(parts))`
double loop: all index-and-element pairs with `i < j`, in loop order. -/
def enumPairs {α : Type} (l : List α) : List ((ℕ × α) × (ℕ × α)) :=
  l.enum.flatMap (fun ip =>
    (l.enum.filter (fun jq => ip.1 < jq.1)).map (fun jq => (ip, jq)))

/-- The per-pair body of `test_no_intersections`: the violation entry
for a pair, if its intersection volume exceeds the 1.0 mm³ threshold. -/
def isectOfPair {S : Type} (K : Kernel S) (i j : ℕ) (p q : NamedPart S) :
    Option IsectInfo :=
  match compute_intersection K p.solid q.solid with
  | some inter =>
    let volume := get_solid_volume K inter
    if volume > 1 then some ⟨i + 1, j + 1, p.name, q.name, pyRound2 volume⟩
    else none
  | none => none

/-- One line of the human-readable intersection descriptions. -/
def isectDescription (is : IsectInfo) : String :=
  quoteS is.name1 ++ (" intersects with ") ++ quoteS is.name2 ++
    (" (overlap volume: ") ++ fmtFixed 2 is.volume ++ ("mm³)")

/-- The violation list built by the double loop of
`test_no_intersections`. -/
def intersectionViolations {S : Type} (K : Kernel S)
    (parts : List (NamedPart S)) : List IsectInfo :=
  (enumPairs parts).filterMap (fun pq => isectOfPair K pq.1.1 pq.2.1 pq.1.2 pq.2.2)

/-- `test_no_intersections(result)`. -/
def test_no_intersections {S : Type} (K : Kernel S) (result : Scene S) :
    TestResult :=
  let parts := extract_solids result
  if parts.length < 2 then
    ⟨("No Part Intersections"), TestStatus.passed,
     ("Less than 2 parts, no intersections possible"), none, none⟩
  else
    let checked_pairs := (enumPairs parts).length
    let intersections := intersectionViolations K parts
    if intersections.isEmpty then
      ⟨("No Part Intersections"), TestStatus.passed,
       ("No intersections found (") ++ toString checked_pairs ++ (" pairs checked)"),
       some (Details.pairsOnly checked_pairs), none⟩
    else
      let descriptions := intersections.map isectDescription
      ⟨("No Part Intersections"), TestStatus.failed,
       toString intersections.length ++ (" intersection(s) found between parts: "),
       some (Details.intersectionsFound intersections descriptions checked_pairs),
       some (String.intercalate ("\n") descriptions)⟩

/-! ## Connectivity check (`_are_parts_connected`, `test_connectivity`) -/

/-- `_are_parts_connected(solid1, solid2, tolerance=0.1)`, OCP branch:
minimum surface distance within tolerance; a raising / not-done
distance computation yields `False`. -/
def are_parts_connected {S : Type} (K : Kernel S) (s1 s2 : S) : Bool :=
  match K.dist s1 s2 with
  | some d => decide (d ≤ 1/10)
  | none => false

/-- `adj[i]` with the out-of-range default that never triggers on the
indices the loops produce. -/
def adjGet (adj : List (List ℕ)) (i : ℕ) : List ℕ := adj.getD i []

/-- `adj[i].append(j); adj[j].append(i)`. -/
def pushEdge (adj : List (List ℕ)) (i j : ℕ) : List (List ℕ) :=
  let a1 := adj.set i (adjGet adj i ++ [j])
  a1.set j (adjGet a1 j ++ [i])

/-- The adjacency-building double loop of `test_connectivity`. -/
def buildAdj {S : Type} (K : Kernel S) (parts : List (NamedPart S)) :
    List (List ℕ) :=
  (enumPairs parts).foldl
    (fun adj pq =>
      if are_parts_connected K pq.1.2.solid pq.2.2.solid then
        pushEdge adj pq.1.1 pq.2.1
      else adj)
    (List.replicate parts.length [])

/-- `visited[v]`, reading out-of-range indices as visited (the loops
only produce in-range indices). -/
def visAt (vis : List Bool) (v : ℕ) : Bool := vis.getD v true

/-- The `if not visited[v]: visited[v] = True; queue.append(v)` body. -/
def bfsStep (acc : List ℕ × List Bool) (v : ℕ) : List ℕ × List Bool :=
  if visAt acc.2 v then acc else (acc.1 ++ [v], acc.2.set v true)

/-- Processing all neighbours of the dequeued node. -/
def processNeighbors (queue : List ℕ) (visited : List Bool)
    (nbrs : List ℕ) : List ℕ × List Bool :=
  nbrs.foldl bfsStep (queue, visited)

theorem count_false_set_true :
    ∀ (l : List Bool) (v : ℕ), l.getD v true = false →
      (l.set v true).count false + 1 = l.count false := by
  intro l
  induction l with
  | nil => intro v h; simp [List.getD] at h
  | cons b t ih =>
    intro v h
    cases v with
    | zero =>
      simp [List.getD] at h
      subst h
      simp [List.count_cons]
    | succ v =>
      have h' : t.getD v true = false := by simpa [List.getD] using h
      have := ih v h'
      simp [List.count_cons]
      omega

theorem processNeighbors_measure :
    ∀ (nbrs queue : List ℕ) (visited : List Bool),
      (processNeighbors queue visited nbrs).2.count false +
        (processNeighbors queue visited nbrs).1.length ≤
      visited.count false + queue.length := by
  intro nbrs
  induction nbrs with
  | nil => intro q vis; simp [processNeighbors]
  | cons n rest ih =>
    intro q vis
    have hrw : processNeighbors q vis (n :: rest) =
        processNeighbors (bfsStep (q, vis) n).1 (bfsStep (q, vis) n).2 rest := rfl
    rw [hrw]
    by_cases hv : visAt vis n = true
    · have hs : bfsStep (q, vis) n = (q, vis) := by simp [bfsStep, hv]
      rw [hs]
      exact ih q vis
    · have hf : visAt vis n = false := by simpa using hv
      have hs : bfsStep (q, vis) n = (q ++ [n], vis.set n true) := by
        simp [bfsStep, hf]
      rw [hs]
      have hc := count_false_set_true vis n hf
      have := ih (q ++ [n]) (vis.set n true)
      simp only [List.length_append, List.length_cons, List.length_nil] at *
      omega

/-- The `while queue:` BFS loop of `test_connectivity`. -/
def bfsLoop (adj : List (List ℕ)) (queue : List ℕ) (visited : List Bool) :
    List Bool :=
  match queue with
  | [] => visited
  | u :: rest =>
    bfsLoop adj (processNeighbors rest visited (adjGet adj u)).1
      (processNeighbors rest visited (adjGet adj u)).2
termination_by visited.count false + queue.length
decreasing_by
  simp only [List.length_cons]
  have h := processNeighbors_measure (adjGet adj u) rest visited
  omega

/-- `visited = [False] * n; queue = [0]; visited[0] = True` then the
BFS loop. -/
def bfsVisited (adj : List (List ℕ)) (n : ℕ) : List Bool :=
  bfsLoop adj [0] ((List.replicate n false).set 0 true)

/-- `parts[i]['name']` (indices produced by the loops are in range). -/
def partNameAt {S : Type} (parts : List (NamedPart S)) (i : ℕ) : String :=
  ((parts.get? i).map (fun p => p.name)).getD ("")

/-- `test_connectivity(result)`. -/
def test_connectivity {S : Type} (K : Kernel S) (result : Scene S) :
    TestResult :=
  let parts := extract_solids result
  if parts.isEmpty then
    ⟨("Part Connectivity"), TestStatus.skipped, ("No parts found to test"),
     none, none⟩
  else if parts.length = 1 then
    ⟨("Part Connectivity"), TestStatus.passed,
     ("Single part is inherently connected"), none, none⟩
  else
    let n := parts.length
    let adj := buildAdj K parts
    let visited := bfsVisited adj n
    if visited.all (fun b => b) then
      ⟨("Part Connectivity"), TestStatus.passed,
       ("All ") ++ toString n ++ (" parts are connected"),
       some (Details.componentCount 1), none⟩
    else
      let disconnected_names :=
        (visited.enum.filter (fun iv => !iv.2)).map
          (fun iv => partNameAt parts iv.1)
      let message :=
        if disconnected_names.length ≤ 3 then
          ("Detached parts: ") ++
            String.intercalate (", ") (disconnected_names.map quoteS)
        else
          ("Found ") ++ toString disconnected_names.length ++ (" detached parts")
      ⟨("Part Connectivity"), TestStatus.failed, message,
       some (Details.disconnectedParts disconnected_names),
       some (("The following parts are not connected to the main assembly (starting from first part):\n") ++
         String.intercalate ("\n") (disconnected_names.map (fun nm => ("- ") ++ nm)))⟩

/-! ## Static stability check (`test_static_stability`) -/

/-- A SKIPPED stability result. -/
def stabSkip (msg : String) : TestResult :=
  ⟨("Static Stability"), TestStatus.skipped, msg, none, none⟩

/-- The FAILED result of the no-support branch. -/
def floatingObjectResult : TestResult :=
  ⟨("Static Stability"), TestStatus.failed,
   ("No parts found touching the ground (floating object?)"), none, none⟩

/-- The center-of-mass accumulation loop: total volume and the three
volume-weighted coordinate sums.  `solid.Center()` is only called for
parts with positive volume; a raising call propagates. -/
def stabilityStep {S : Type} (K : Kernel S) (acc : ℚ × ℚ × ℚ × ℚ)
    (p : NamedPart S) : Except String (ℚ × ℚ × ℚ × ℚ) :=
  let vol := get_solid_volume K p.solid
  if vol ≤ 0 then Except.ok acc
  else
    match K.center p.solid with
    | Except.error e => Except.error e
    | Except.ok c =>
      Except.ok (acc.1 + vol, acc.2.1 + c.x * vol,
        acc.2.2.1 + c.y * vol, acc.2.2.2 + c.z * vol)

def stabilityAccum {S : Type} (K : Kernel S) (parts : List (NamedPart S)) :
    Except String (ℚ × ℚ × ℚ × ℚ) :=
  parts.foldlM (stabilityStep K) (0, 0, 0, 0)

/-- The lowest-Z loop (`min_z` starts at `float` infinity, modelled by
the `none` start of the fold). -/
def minZStep {S : Type} (K : Kernel S) (mz : Option ℚ) (p : NamedPart S) :
    Except String (Option ℚ) :=
  match K.bbox p.solid with
  | Except.error e => Except.error e
  | Except.ok bb =>
    Except.ok (match mz with
      | none => some bb.zmin
      | some m => if bb.zmin < m then some bb.zmin else some m)

def minZFold {S : Type} (K : Kernel S) (parts : List (NamedPart S)) :
    Except String (Option ℚ) :=
  parts.foldlM (minZStep K) none

/-- The support-point collection loop: four bounding-box footprint
corners per part touching the ground. -/
def basePointsStep {S : Type} (K : Kernel S) (ground_threshold : ℚ)
    (pts : List (ℚ × ℚ)) (p : NamedPart S) : Except String (List (ℚ × ℚ)) :=
  match K.bbox p.solid with
  | Except.error e => Except.error e
  | Except.ok bb =>
    Except.ok (if bb.zmin ≤ ground_threshold then
      pts ++ [(bb.xmin, bb.ymin), (bb.xmax, bb.ymin),
              (bb.xmin, bb.ymax), (bb.xmax, bb.ymax)]
    else pts)

def basePointsFold {S : Type} (K : Kernel S) (parts : List (NamedPart S))
    (ground_threshold : ℚ) : Except String (List (ℚ × ℚ)) :=
  parts.foldlM (basePointsStep K ground_threshold) []

/-- The body of the `try:` block of `test_static_stability`; a
` .error` value is an exception about to be caught by the handler. -/
def stabilityBody {S : Type} (K : Kernel S) (result : Scene S) :
    Except String TestResult :=
  let parts := extract_solids result
  if parts.isEmpty then Except.ok (stabSkip ("No parts found to test"))
  else
    match stabilityAccum K parts with
    | Except.error e => Except.error e
    | Except.ok acc =>
      let total_volume := acc.1
      if total_volume ≤ 0 then
        Except.ok (stabSkip ("Could not calculate volume of parts"))
      else
        let com : ℚ × ℚ × ℚ :=
          (acc.2.1 / total_volume, acc.2.2.1 / total_volume,
           acc.2.2.2 / total_volume)
        match minZFold K parts with
        | Except.error e => Except.error e
        | Except.ok mzOpt =>
          let min_z := mzOpt.getD 0
          let ground_threshold := min_z + 1
          match basePointsFold K parts ground_threshold with
          | Except.error e => Except.error e
          | Except.ok base_points =>
            if base_points.isEmpty then Except.ok floatingObjectResult
            else
              let base_min_x := listMin (base_points.map Prod.fst)
              let base_max_x := listMax (base_points.map Prod.fst)
              let base_min_y := listMin (base_points.map Prod.snd)
              let base_max_y := listMax (base_points.map Prod.snd)
              let is_stable_x := decide (base_min_x ≤ com.1 ∧ com.1 ≤ base_max_x)
              let is_stable_y := decide (base_min_y ≤ com.2.1 ∧ com.2.1 ≤ base_max_y)
              let margin_x := min (com.1 - base_min_x) (base_max_x - com.1)
              let margin_y := min (com.2.1 - base_min_y) (base_max_y - com.2.1)
              let min_margin := min margin_x margin_y
              let details := Details.stabilityReport
                [pyRound2 com.1, pyRound2 com.2.1, pyRound2 com.2.2]
                [pyRound2 base_min_x, pyRound2 base_max_x]
                [pyRound2 base_min_y, pyRound2 base_max_y]
                (pyRound2 min_margin)
              if is_stable_x && is_stable_y then
                Except.ok ⟨("Static Stability"), TestStatus.passed,
                  ("Design is stable (CoM is ") ++ fmtFixed 1 min_margin ++
                    ("mm inside base)"),
                  some details, none⟩
              else
                Except.ok ⟨("Static Stability"), TestStatus.failed,
                  ("Design is unstable! Center of Mass is outside the base."),
                  some details,
                  some (("Center of Mass: [") ++ fmtFixed 2 com.1 ++ (", ") ++
                    fmtFixed 2 com.2.1 ++ (", ") ++ fmtFixed 2 com.2.2 ++
                    ("]\nBase Bounds: X[") ++ fmtFixed 2 base_min_x ++ (", ") ++
                    fmtFixed 2 base_max_x ++ ("], Y[") ++ fmtFixed 2 base_min_y ++
                    (", ") ++ fmtFixed 2 base_max_y ++ ("]"))⟩

/-- `test_static_stability(result)`: the whole procedure wrapped in the
`try/except` that turns any exception into an ERROR result. -/
def test_static_stability {S : Type} (K : Kernel S) (result : Scene S) :
    TestResult :=
  match stabilityBody K result with
  | Except.ok r => r
  | Except.error e =>
    ⟨("Static Stability"), TestStatus.error,
     ("Error running stability test: ") ++ e, none, none⟩

/-! ## Catalog constraint check (`test_parts_in_library`) -/

/-- The violation message for one classified part (`None` = no
violation). -/
def violationMsg (nm : String) : Classification → Option String
  | Classification.plywood _ w h valid =>
    if valid then none
    else some (("Part ") ++ quoteS nm ++ (": Plywood size ") ++ fmtFixed 1 w ++
      ("x") ++ fmtFixed 1 h ++ ("mm exceeds maximum 500x500mm"))
  | Classification.unknown dims =>
    some (("Part ") ++ quoteS nm ++ (": Unrecognized part with dimensions ") ++
      fmtFixed 1 dims.1 ++ ("x") ++ fmtFixed 1 dims.2.1 ++ ("x") ++
      fmtFixed 1 dims.2.2 ++ ("mm"))
  | Classification.beam ty _ len valid bdef =>
    if valid then none
    else
      some (("Part ") ++ quoteS nm ++ (": ") ++ ty ++ (" length ") ++
        fmtFixed 1 len ++ ("mm is not in valid range (") ++
        fmtFixed 0 (bdef.min_length.getD 100) ++ ("-") ++
        fmtFixed 0 (bdef.max_length.getD 500) ++ ("mm, ") ++
        fmtFixed 0 (bdef.length_increment.getD 50) ++ ("mm increments)"))

/-- `classification['type']`. -/
def classTypeName : Classification → String
  | Classification.beam ty _ _ _ _ => ty
  | Classification.plywood _ _ _ _ => ("plywood")
  | Classification.unknown _ => ("unknown")

/-- `part_summary[ptype] = part_summary.get(ptype, 0) + 1` on an
insertion-ordered association list. -/
def upsertCount : List (String × ℕ) → String → List (String × ℕ)
  | [], k => [(k, 1)]
  | (k0, c) :: t, k =>
    if k0 = k then (k0, c + 1) :: t else (k0, c) :: upsertCount t k

/-- `test_parts_in_library(result)` (the parts library is passed
explicitly; the source reads `get_settings().parts_library`). -/
def test_parts_in_library {S : Type} (lib : PartsLibrary) (K : Kernel S)
    (result : Scene S) : TestResult :=
  let parts := extract_solids result
  if parts.isEmpty then
    ⟨("Parts in Library"), TestStatus.skipped,
     ("No individual parts found to analyze"), none, none⟩
  else
    let infos := parts.filterMap (fun p =>
      (K.dims p.solid).map (fun d => (p.name, classify_part lib d)))
    let violations := infos.filterMap (fun nc => violationMsg nc.1 nc.2)
    if violations.isEmpty then
      let summary := infos.foldl (fun s nc => upsertCount s (classTypeName nc.2)) []
      let summary_str := String.intercalate (", ")
        (summary.map (fun tc => toString tc.2 ++ (" ") ++ tc.1))
      ⟨("Parts in Library"), TestStatus.passed,
       ("All ") ++ toString infos.length ++ (" parts meet constraints (") ++
         summary_str ++ (")"),
       some (Details.libraryReport [] infos.length summary), none⟩
    else
      ⟨("Parts in Library"), TestStatus.failed,
       toString violations.length ++ (" part violation(s) found: "),
       some (Details.libraryReport violations infos.length []),
       some (String.intercalate ("\n") violations)⟩

/-! ## Orchestrator (`test_code_executes`, `run_test_suite`) -/

/-- The observable outcome of `exec(code, exec_globals)` followed by
the `result` lookup: the five paths of `test_code_executes`. -/
inductive ExecBehavior (S : Type) where
  | syntaxError (lineno : ℕ) (msg : String)
  | runtimeError (msg : String)
  | noResult
  | resultNone
  | okResult (scene : Scene S)

/-- `test_code_executes(code, exec_globals)`. -/
def test_code_executes {S : Type} : ExecBehavior S → TestResult
  | ExecBehavior.syntaxError ln msg =>
    ⟨("Code Execution"), TestStatus.failed,
     ("Syntax error on line ") ++ toString ln ++ (": ") ++ msg, none, none⟩
  | ExecBehavior.runtimeError msg =>
    ⟨("Code Execution"), TestStatus.error,
     ("Runtime error: ") ++ msg, none, none⟩
  | ExecBehavior.noResult =>
    ⟨("Code Execution"), TestStatus.failed,
     ("Code executed but \x27result\x27 variable was not defined"), none, none⟩
  | ExecBehavior.resultNone =>
    ⟨("Code Execution"), TestStatus.failed,
     ("Code executed but \x27result\x27 is None"), none, none⟩
  | ExecBehavior.okResult _ =>
    ⟨("Code Execution"), TestStatus.passed,
     ("Code executed successfully and produced a result"), none, none⟩

/-- One SKIPPED entry of the failure branch of `run_test_suite`. -/
def skippedEntry (nm : String) : TestResult :=
  ⟨nm, TestStatus.skipped, ("Skipped because code execution failed"), none, none⟩

/-- `run_test_suite(code, cached_modules)`.  The branch on
`exec_result.status == TestStatus.PASSED` is resolved by matching on
the execution behaviour (the status is `passed` exactly for
`okResult`).  NOTE: the failure branch of the source appends the
"Part Connectivity" SKIPPED entry twice (test_service.py lines
911-920); that duplication is reproduced faithfully here. -/
def run_test_suite {S : Type} (lib : PartsLibrary) (K : Kernel S)
    (exec : ExecBehavior S) : TestSuiteResult :=
  let exec_result := test_code_executes exec
  let tests : List TestResult :=
    match exec with
    | ExecBehavior.okResult scene =>
      [exec_result,
       test_parts_in_library lib K scene,
       test_no_intersections K scene,
       test_static_stability K scene,
       test_connectivity K scene]
    | _ =>
      [exec_result,
       skippedEntry ("Parts in Library"),
       skippedEntry ("No Part Intersections"),
       skippedEntry ("Static Stability"),
       skippedEntry ("Part Connectivity"),
       skippedEntry ("Part Connectivity")]
  { passed := countStatus TestStatus.passed tests
    failed := countStatus TestStatus.failed tests
    skipped := countStatus TestStatus.skipped tests
    errors := countStatus TestStatus.error tests
    tests := tests }

/-! ## Theorems: the part classifier (C2, C3) -/

/-- The beam loop of `_classify_part` is exactly a first-match search
over the declared beam list. -/
theorem classifyBeams_eq_find (d0 d1 d2 : ℚ) :
    ∀ bs : List BeamDef,
      classifyBeams d0 d1 d2 bs =
        (bs.find? (beamMatches d0 d1)).map
          (fun b => Classification.beam b.name (b.width, b.height) d2
            (is_valid_beam_length d2 b) b) := by
  intro bs
  induction bs with
  | nil => rfl
  | cons b rest ih =>
    by_cases h : beamMatches d0 d1 b = true
    · simp [classifyBeams, List.find?_cons_of_pos _ h, h]
    · have h' : beamMatches d0 d1 b = false := by simpa using h
      simp [classifyBeams, List.find?_cons_of_neg _ h, h', ih]

/-- C2: on a sorted input triple, the classifier returns the Beam
variant for the first catalog beam entry whose ascending-sorted
cross-section matches the two smallest dimensions within 1.0mm per
axis; the third dimension is the beam length and `valid_length` holds
exactly within the tolerance-widened length window on the increment
grid. -/
theorem classify_part_beam_first_match (lib : PartsLibrary) (d0 d1 d2 : ℚ)
    (hs1 : d0 ≤ d1) (hs2 : d1 ≤ d2) (b : BeamDef)
    (hfind : lib.beams.find? (beamMatches d0 d1) = some b) :
    classify_part lib (d0, d1, d2) =
      Classification.beam b.name (b.width, b.height) d2
        (is_valid_beam_length d2 b) b ∧
    (is_valid_beam_length d2 b = true ↔
      (b.min_length.getD 100 - 1 ≤ d2 ∧ d2 ≤ b.max_length.getD 500 + 1 ∧
        (pyMod (d2 - b.min_length.getD 100) (b.length_increment.getD 50) ≤ 1 ∨
         pyMod (d2 - b.min_length.getD 100) (b.length_increment.getD 50) ≥
           b.length_increment.getD 50 - 1))) := by
  constructor
  · unfold classify_part
    rw [classifyBeams_eq_find d0 d1 d2 lib.beams, hfind]
    rfl
  · by_cases h : d2 < b.min_length.getD 100 - 1 ∨ d2 > b.max_length.getD 500 + 1
    · have hlhs : is_valid_beam_length d2 b = false := by
        unfold is_valid_beam_length
        simp [h]
      rw [hlhs]
      simp only [Bool.false_eq_true, false_iff]
      intro hc
      rcases h with h | h
      · linarith [hc.1]
      · linarith [hc.2.1]
    · push_neg at h
      unfold is_valid_beam_length
      have hcond : ¬ (d2 < b.min_length.getD 100 - 1 ∨
          d2 > b.max_length.getD 500 + 1) := by
        push_neg
        exact h
      simp only [hcond, if_false, decide_eq_true_eq]
      constructor
      · intro hrem
        exact ⟨by linarith [h.1], by linarith [h.2], hrem⟩
      · intro hc
        exact hc.2.2

/-- Witness for C2 at the concrete input `(28, 28, 300)` against the
default catalog. -/
theorem classify_part_beam_first_match_witness :
    ((28 : ℚ) ≤ 28 ∧ (28 : ℚ) ≤ 300 ∧
      defaultPartsLibrary.beams.find? (beamMatches 28 28) = some beam28x28) ∧
    (classify_part defaultPartsLibrary (28, 28, 300) =
      Classification.beam beam28x28.name (beam28x28.width, beam28x28.height) 300
        (is_valid_beam_length 300 beam28x28) beam28x28 ∧
    (is_valid_beam_length 300 beam28x28 = true ↔
      (beam28x28.min_length.getD 100 - 1 ≤ 300 ∧
        (300 : ℚ) ≤ beam28x28.max_length.getD 500 + 1 ∧
        (pyMod (300 - beam28x28.min_length.getD 100)
            (beam28x28.length_increment.getD 50) ≤ 1 ∨
         pyMod (300 - beam28x28.min_length.getD 100)
            (beam28x28.length_increment.getD 50) ≥
           beam28x28.length_increment.getD 50 - 1)))) :=
  ⟨⟨by norm_num, by norm_num, by
      simp [defaultPartsLibrary, List.find?,
        show beamMatches 28 28 beam28x28 = true from by
          norm_num [beamMatches, beam28x28]]⟩,
   classify_part_beam_first_match defaultPartsLibrary 28 28 300
     (by norm_num) (by norm_num) beam28x28 (by
      simp [defaultPartsLibrary, List.find?,
        show beamMatches 28 28 beam28x28 = true from by
          norm_num [beamMatches, beam28x28]])⟩

/-- C3: when no beam entry matches, the classifier returns the Sheet
variant exactly when the smallest dimension is within 0.5mm of the
catalog sheet thickness (with `valid_size` deciding the max-size
bounds), and the Unknown variant carrying the sorted dimensions
otherwise; it is total by construction, with no error case. -/
theorem classify_part_sheet_or_unknown (lib : PartsLibrary) (pw : PlywoodDef)
    (d0 d1 d2 : ℚ) (hs1 : d0 ≤ d1) (hs2 : d1 ≤ d2)
    (hpw : lib.plywood = some pw)
    (hnb : lib.beams.find? (beamMatches d0 d1) = none) :
    (|d0 - pw.thickness.getD 7| ≤ 1/2 →
      classify_part lib (d0, d1, d2) =
        Classification.plywood d0 d1 d2
          (decide (d1 ≤ pw.max_width.getD 500 ∧ d2 ≤ pw.max_height.getD 500))) ∧
    (¬ |d0 - pw.thickness.getD 7| ≤ 1/2 →
      classify_part lib (d0, d1, d2) = Classification.unknown (d0, d1, d2)) ∧
    (decide (d1 ≤ pw.max_width.getD 500 ∧ d2 ≤ pw.max_height.getD 500) = true ↔
      (d1 ≤ pw.max_width.getD 500 ∧ d2 ≤ pw.max_height.getD 500)) := by
  have hbeams : classifyBeams d0 d1 d2 lib.beams = none := by
    rw [classifyBeams_eq_find d0 d1 d2 lib.beams, hnb]
    rfl
  refine ⟨?_, ?_, by simp⟩
  · intro hth
    have hth2 : |d0 - pw.thickness.getD 7| ≤ 2⁻¹ := by
      have hh : (1 : ℚ)/2 = 2⁻¹ := by norm_num
      rwa [hh] at hth
    unfold classify_part
    rw [hbeams, hpw]
    simp [hth2]
  · intro hth
    have hth2 : ¬ |d0 - pw.thickness.getD 7| ≤ 2⁻¹ := by
      have hh : (1 : ℚ)/2 = 2⁻¹ := by norm_num
      rwa [hh] at hth
    unfold classify_part
    rw [hbeams, hpw]
    simp [hth2]

/-- Witness for C3 at the concrete input `(7, 400, 600)` (a plywood
sheet thickness with an oversize second axis) against the default
catalog. -/
theorem classify_part_sheet_or_unknown_witness :
    ((7 : ℚ) ≤ 400 ∧ (400 : ℚ) ≤ 600 ∧
      defaultPartsLibrary.plywood =
        some { thickness := some 7, max_width := some 500, max_height := some 500 } ∧
      defaultPartsLibrary.beams.find? (beamMatches 7 400) = none) ∧
    ((|(7 : ℚ) - (some (7 : ℚ)).getD 7| ≤ 1/2 →
      classify_part defaultPartsLibrary (7, 400, 600) =
        Classification.plywood 7 400 600
          (decide ((400 : ℚ) ≤ (some (500 : ℚ)).getD 500 ∧
            (600 : ℚ) ≤ (some (500 : ℚ)).getD 500))) ∧
    (¬ |(7 : ℚ) - (some (7 : ℚ)).getD 7| ≤ 1/2 →
      classify_part defaultPartsLibrary (7, 400, 600) =
        Classification.unknown (7, 400, 600)) ∧
    (decide ((400 : ℚ) ≤ (some (500 : ℚ)).getD 500 ∧
        (600 : ℚ) ≤ (some (500 : ℚ)).getD 500) = true ↔
      ((400 : ℚ) ≤ (some (500 : ℚ)).getD 500 ∧
        (600 : ℚ) ≤ (some (500 : ℚ)).getD 500))) :=
  ⟨⟨by norm_num, by norm_num, by rfl, by
      simp [defaultPartsLibrary, List.find?,
        show beamMatches 7 400 beam28x28 = false from by
          norm_num [beamMatches, beam28x28],
        show beamMatches 7 400 beam48x24 = false from by
          norm_num [beamMatches, beam48x24]]⟩,
   classify_part_sheet_or_unknown defaultPartsLibrary
     { thickness := some 7, max_width := some 500, max_height := some 500 }
     7 400 600 (by norm_num) (by norm_num) (by rfl) (by
      simp [defaultPartsLibrary, List.find?,
        show beamMatches 7 400 beam28x28 = false from by
          norm_num [beamMatches, beam28x28],
        show beamMatches 7 400 beam48x24 = false from by
          norm_num [beamMatches, beam48x24]])⟩

/-! ## Theorems: error handling of the stability check (C7) and the
serialized success flag (C9) -/

/-- C7: the stability check never propagates an exception: whenever
its body raises (any `.error` of the modelled `try:` block), the check
returns a TestResult with status ERROR carrying the exception text. -/
theorem test_static_stability_catches_exceptions {S : Type} (K : Kernel S)
    (result : Scene S) (e : String)
    (h : stabilityBody K result = Except.error e) :
    test_static_stability K result =
      ⟨("Static Stability"), TestStatus.error,
       ("Error running stability test: ") ++ e, none, none⟩ := by
  unfold test_static_stability
  rw [h]

/-- A kernel over unit solids whose `Center()` and `BoundingBox()`
raise; used to exhibit the exception paths at a concrete input. -/
def unitKernelErr : Kernel Unit where
  dims := fun _ => none
  volume := fun _ => some 1
  center := fun _ => Except.error ("boom")
  bbox := fun _ => Except.error ("boom")
  intersect := fun _ _ => none
  dist := fun _ _ => none

/-- Witness for C7: a single-part scene whose `Center()` call raises
with text "boom". -/
theorem test_static_stability_catches_exceptions_witness :
    (stabilityBody unitKernelErr (Scene.directSolid ()) =
      Except.error ("boom")) ∧
    test_static_stability unitKernelErr (Scene.directSolid ()) =
      ⟨("Static Stability"), TestStatus.error,
       ("Error running stability test: ") ++ ("boom"), none, none⟩ :=
  ⟨by rfl,
   test_static_stability_catches_exceptions unitKernelErr
     (Scene.directSolid ()) ("boom") (by rfl)⟩

/-- C9: for every suite run, the serialized `success` flag equals the
conjunction of "no FAILED result" and "no ERROR result", with the
counts obtained by scanning the result list. -/
theorem run_test_suite_success_iff_no_failures {S : Type}
    (lib : PartsLibrary) (K : Kernel S) (exec : ExecBehavior S) :
    suiteSuccess (run_test_suite lib K exec) =
      ((countStatus TestStatus.failed (run_test_suite lib K exec).tests == 0) &&
       (countStatus TestStatus.error (run_test_suite lib K exec).tests == 0)) := by
  cases exec <;> rfl

/-! ## Theorem: the failure branch of the orchestrator (C1) -/

/-- C1 evidence: running the suite on code that raises a runtime error
produces ONE "Code Execution" ERROR result followed by FIVE SKIPPED
results — the "Part Connectivity" skip entry is appended twice
(test_service.py lines 911-920), contradicting the specified
"exactly four SKIPPED results, one per analysis".  The serialized
`success` flag is `false` as specified. -/
theorem run_test_suite_failure_emits_five_skips :
    run_test_suite defaultPartsLibrary unitKernelErr
        (ExecBehavior.runtimeError ("boom")) =
      { passed := 0, failed := 0, skipped := 5, errors := 1,
        tests :=
          [⟨("Code Execution"), TestStatus.error,
            ("Runtime error: ") ++ ("boom"), none, none⟩,
           skippedEntry ("Parts in Library"),
           skippedEntry ("No Part Intersections"),
           skippedEntry ("Static Stability"),
           skippedEntry ("Part Connectivity"),
           skippedEntry ("Part Connectivity")] } ∧
    countStatus TestStatus.skipped
      (run_test_suite defaultPartsLibrary unitKernelErr
        (ExecBehavior.runtimeError ("boom"))).tests = 5 ∧
    suiteSuccess (run_test_suite defaultPartsLibrary unitKernelErr
      (ExecBehavior.runtimeError ("boom"))) = false :=
  ⟨rfl, rfl, rfl⟩

/-! ## Theorems: the pairwise intersection check (C4) -/

/-- Membership in the double-loop pair list: exactly the index pairs
`i < j` with their list elements. -/
theorem mem_enumPairs {α : Type} (l : List α) (x : (ℕ × α) × (ℕ × α)) :
    x ∈ enumPairs l ↔
      x.1.1 < x.2.1 ∧ l.get? x.1.1 = some x.1.2 ∧ l.get? x.2.1 = some x.2.2 := by
  unfold enumPairs
  rw [List.mem_flatMap]
  constructor
  · rintro ⟨ip, hip, hx⟩
    rw [List.mem_map] at hx
    rcases hx with ⟨jq, hjq, hxeq⟩
    rw [List.mem_filter] at hjq
    rcases hjq with ⟨hjq, hlt⟩
    subst hxeq
    refine ⟨by simpa using hlt, ?_, ?_⟩
    · simpa [List.get?_eq_getElem?] using List.mem_enum_iff_getElem?.mp hip
    · simpa [List.get?_eq_getElem?] using List.mem_enum_iff_getElem?.mp hjq
  · rintro ⟨hlt, hi, hj⟩
    refine ⟨x.1, ?_, ?_⟩
    · exact List.mem_enum_iff_getElem?.mpr (by simpa [List.get?_eq_getElem?] using hi)
    · rw [List.mem_map]
      refine ⟨x.2, ?_, rfl⟩
      rw [List.mem_filter]
      exact ⟨List.mem_enum_iff_getElem?.mpr
        (by simpa [List.get?_eq_getElem?] using hj), by simpa using hlt⟩

/-- `isectOfPair` registers an entry exactly when the computed
intersection exists with volume above the 1.0 mm³ threshold. -/
theorem isectOfPair_isSome_iff {S : Type} (K : Kernel S) (i j : ℕ)
    (p q : NamedPart S) :
    (isectOfPair K i j p q).isSome = true ↔
      ∃ inter, compute_intersection K p.solid q.solid = some inter ∧
        get_solid_volume K inter > 1 := by
  unfold isectOfPair
  cases h : compute_intersection K p.solid q.solid with
  | none => simp
  | some inter =>
    by_cases hv : get_solid_volume K inter > 1
    · simp [hv]
    · simp [hv]

/-- C4: the intersection check passes trivially below 2 parts; a pair
registers a violation exactly when its boolean-intersection volume
exceeds 1.0 mm³ (a failed pairwise computation registering nothing);
the check fails listing every violating pair and otherwise passes
reporting the number of pairs checked. -/
theorem test_no_intersections_spec {S : Type} (K : Kernel S) (result : Scene S) :
    ((extract_solids result).length < 2 →
      test_no_intersections K result =
        ⟨("No Part Intersections"), TestStatus.passed,
         ("Less than 2 parts, no intersections possible"), none, none⟩) ∧
    (∀ (i j : ℕ) (p q : NamedPart S),
      compute_intersection K p.solid q.solid = none →
      isectOfPair K i j p q = none) ∧
    (∀ info, info ∈ intersectionViolations K (extract_solids result) ↔
      ∃ i j p q, i < j ∧
        (extract_solids result).get? i = some p ∧
        (extract_solids result).get? j = some q ∧
        isectOfPair K i j p q = some info) ∧
    (2 ≤ (extract_solids result).length →
      (((test_no_intersections K result).status = TestStatus.failed) ↔
        ∃ i j p q, i < j ∧
          (extract_solids result).get? i = some p ∧
          (extract_solids result).get? j = some q ∧
          ∃ inter, compute_intersection K p.solid q.solid = some inter ∧
            get_solid_volume K inter > 1) ∧
      (intersectionViolations K (extract_solids result) = [] →
        test_no_intersections K result =
          ⟨("No Part Intersections"), TestStatus.passed,
           ("No intersections found (") ++
             toString (enumPairs (extract_solids result)).length ++
             (" pairs checked)"),
           some (Details.pairsOnly (enumPairs (extract_solids result)).length),
           none⟩) ∧
      (intersectionViolations K (extract_solids result) ≠ [] →
        test_no_intersections K result =
          ⟨("No Part Intersections"), TestStatus.failed,
           toString (intersectionViolations K (extract_solids result)).length ++
             (" intersection(s) found between parts: "),
           some (Details.intersectionsFound
             (intersectionViolations K (extract_solids result))
             ((intersectionViolations K (extract_solids result)).map isectDescription)
             (enumPairs (extract_solids result)).length),
           some (String.intercalate ("\n")
             ((intersectionViolations K (extract_solids result)).map isectDescription))⟩)) := by
  have hviol : ∀ info, info ∈ intersectionViolations K (extract_solids result) ↔
      ∃ i j p q, i < j ∧ (extract_solids result).get? i = some p ∧
        (extract_solids result).get? j = some q ∧
        isectOfPair K i j p q = some info := by
    intro info
    unfold intersectionViolations
    rw [List.mem_filterMap]
    constructor
    · rintro ⟨pq, hpq, hsome⟩
      rw [mem_enumPairs] at hpq
      exact ⟨pq.1.1, pq.2.1, pq.1.2, pq.2.2, hpq.1, hpq.2.1, hpq.2.2, hsome⟩
    · rintro ⟨i, j, p, q, hlt, hi, hj, hsome⟩
      exact ⟨((i, p), (j, q)), (mem_enumPairs _ _).mpr ⟨hlt, hi, hj⟩, hsome⟩
  refine ⟨?_, ?_, hviol, ?_⟩
  · intro h
    unfold test_no_intersections
    simp only [if_pos h]
  · intro i j p q hnone
    simp [isectOfPair, compute_intersection] at hnone ⊢
    simp [hnone]
  · intro h2
    have hnlt : ¬ (extract_solids result).length < 2 := by omega
    have hEmpty : intersectionViolations K (extract_solids result) = [] →
        test_no_intersections K result =
          ⟨("No Part Intersections"), TestStatus.passed,
           ("No intersections found (") ++
             toString (enumPairs (extract_solids result)).length ++
             (" pairs checked)"),
           some (Details.pairsOnly (enumPairs (extract_solids result)).length),
           none⟩ := by
      intro he
      unfold test_no_intersections
      simp only [if_neg hnlt]
      simp [he]
    have hNonEmpty : intersectionViolations K (extract_solids result) ≠ [] →
        test_no_intersections K result =
          ⟨("No Part Intersections"), TestStatus.failed,
           toString (intersectionViolations K (extract_solids result)).length ++
             (" intersection(s) found between parts: "),
           some (Details.intersectionsFound
             (intersectionViolations K (extract_solids result))
             ((intersectionViolations K (extract_solids result)).map isectDescription)
             (enumPairs (extract_solids result)).length),
           some (String.intercalate ("\n")
             ((intersectionViolations K (extract_solids result)).map isectDescription))⟩ := by
      intro he
      unfold test_no_intersections
      simp only [if_neg hnlt]
      rw [if_neg (by simpa [List.isEmpty_iff] using he)]
    refine ⟨?_, hEmpty, hNonEmpty⟩
    constructor
    · intro hst
      by_cases he : intersectionViolations K (extract_solids result) = []
      · rw [hEmpty he] at hst
        exact absurd hst (by simp)
      · rcases List.exists_mem_of_ne_nil _ he with ⟨info, hinfo⟩
        rcases (hviol info).mp hinfo with ⟨i, j, p, q, hlt, hi, hj, hsome⟩
        have hIsSome : (isectOfPair K i j p q).isSome = true := by
          rw [hsome]; rfl
        rcases (isectOfPair_isSome_iff K i j p q).mp hIsSome with ⟨inter, hci, hv⟩
        exact ⟨i, j, p, q, hlt, hi, hj, inter, hci, hv⟩
    · rintro ⟨i, j, p, q, hlt, hi, hj, inter, hci, hv⟩
      have hIsSome : (isectOfPair K i j p q).isSome = true :=
        (isectOfPair_isSome_iff K i j p q).mpr ⟨inter, hci, hv⟩
      rcases Option.isSome_iff_exists.mp hIsSome with ⟨info, hsome⟩
      have hne : intersectionViolations K (extract_solids result) ≠ [] := by
        intro hnil
        have := (hviol info).mpr ⟨i, j, p, q, hlt, hi, hj, hsome⟩
        rw [hnil] at this
        exact absurd this (List.not_mem_nil info)
      rw [hNonEmpty hne]

/-- A kernel over ℕ-labelled solids in which every pair intersects
with volume 125000 mm³. -/
def natKernelIsect : Kernel ℕ where
  dims := fun _ => none
  volume := fun _ => some 125000
  center := fun _ => Except.error ("x")
  bbox := fun _ => Except.error ("x")
  intersect := fun a b => some (a + b)
  dist := fun _ _ => none

/-- A two-part scene (two overlapping cubes, extracted from a compound
into synthetic `part_1`, `part_2` names). -/
def sceneTwoCubes : Scene ℕ := Scene.compoundScene (Except.ok [10, 20])

/-- Witness for C4 on the two-cube scene. -/
theorem test_no_intersections_spec_witness :
    2 ≤ (extract_solids sceneTwoCubes).length ∧
    ((((test_no_intersections natKernelIsect sceneTwoCubes).status =
        TestStatus.failed) ↔
      ∃ i j p q, i < j ∧
        (extract_solids sceneTwoCubes).get? i = some p ∧
        (extract_solids sceneTwoCubes).get? j = some q ∧
        ∃ inter, compute_intersection natKernelIsect p.solid q.solid = some inter ∧
          get_solid_volume natKernelIsect inter > 1) ∧
    (intersectionViolations natKernelIsect (extract_solids sceneTwoCubes) = [] →
      test_no_intersections natKernelIsect sceneTwoCubes =
        ⟨("No Part Intersections"), TestStatus.passed,
         ("No intersections found (") ++
           toString (enumPairs (extract_solids sceneTwoCubes)).length ++
           (" pairs checked)"),
         some (Details.pairsOnly (enumPairs (extract_solids sceneTwoCubes)).length),
         none⟩) ∧
    (intersectionViolations natKernelIsect (extract_solids sceneTwoCubes) ≠ [] →
      test_no_intersections natKernelIsect sceneTwoCubes =
        ⟨("No Part Intersections"), TestStatus.failed,
         toString (intersectionViolations natKernelIsect
             (extract_solids sceneTwoCubes)).length ++
           (" intersection(s) found between parts: "),
         some (Details.intersectionsFound
           (intersectionViolations natKernelIsect (extract_solids sceneTwoCubes))
           ((intersectionViolations natKernelIsect
               (extract_solids sceneTwoCubes)).map isectDescription)
           (enumPairs (extract_solids sceneTwoCubes)).length),
         some (String.intercalate ("\n")
           ((intersectionViolations natKernelIsect
               (extract_solids sceneTwoCubes)).map isectDescription))⟩)) :=
  ⟨by decide,
   (test_no_intersections_spec natKernelIsect sceneTwoCubes).2.2.2 (by decide)⟩

/-! ## Theorems: extraction failure policy (C8) -/

/-- Unfolding equation: the empty Assembly loop. -/
theorem extractAsmLoop_nil {S : Type} :
    extractAsmLoop ([] : List (String × AsmNode S)) = ([], false) := rfl

/-- Unfolding equation: one step of the Assembly loop. -/
theorem extractAsmLoop_cons {S : Type} (nm : String) (nd : AsmNode S)
    (rest : List (String × AsmNode S)) :
    extractAsmLoop ((nm, nd) :: rest) =
      match nodeParts nm nd with
      | Except.error _ => ([], true)
      | Except.ok ps => (ps ++ (extractAsmLoop rest).1, (extractAsmLoop rest).2) := rfl

/-- Unfolding equation: extraction on an Assembly scene. -/
theorem extract_solids_assembly {S : Type} (objs : List (String × AsmNode S))
    (comp : Except String (List S)) :
    extract_solids (Scene.assembly objs comp) =
      (if (extractAsmLoop objs).2 then (extractAsmLoop objs).1
       else if (extractAsmLoop objs).1.isEmpty then
         match comp with
         | Except.ok solids => syntheticParts solids
         | Except.error _ => []
       else (extractAsmLoop objs).1) := rfl

/-- A node whose unwrapped `Solids()` call raises aborts the Assembly
loop, keeping exactly the parts accumulated from the prefix. -/
theorem extractAsmLoop_append_abort {S : Type} (nm : String) (self : S)
    (loc : S → S) (e : String) (post : List (String × AsmNode S)) :
    ∀ pre : List (String × AsmNode S), (extractAsmLoop pre).2 = false →
      extractAsmLoop
          (pre ++ (nm, ⟨some (NodeObj.solidsObj self (Except.error e)), loc⟩) :: post) =
        ((extractAsmLoop pre).1, true) := by
  intro pre
  induction pre with
  | nil =>
    intro _
    rw [List.nil_append, extractAsmLoop_cons]
    simp [nodeParts, extractAsmLoop_nil]
  | cons a rest ih =>
    intro hok
    rcases a with ⟨anm, nd⟩
    rw [extractAsmLoop_cons] at hok
    rw [List.cons_append, extractAsmLoop_cons]
    cases hnp : nodeParts anm nd with
    | error u =>
      rw [hnp] at hok
      simp at hok
    | ok ps =>
      rw [hnp] at hok
      simp only at hok
      rw [extractAsmLoop_cons, hnp]
      simp only
      rw [ih hok]

/-- C8: extraction is total (it is a Lean function — no raising path
exists) and recovers from failures exactly as specified: a node whose
`val()` raises is skipped and extraction proceeds with the other
nodes; a node failure escaping to the outer handler still returns
every part extracted before it; unrecognized or wholly failing scenes
yield the empty part list. -/
theorem extract_solids_failure_policy {S : Type} :
    (∀ (nm : String) (loc : S → S) (e : String)
       (objs : List (String × AsmNode S)) (comp : Except String (List S)),
      extract_solids (Scene.assembly
          ((nm, ⟨some (NodeObj.workplane (Except.error e)), loc⟩) :: objs) comp) =
        extract_solids (Scene.assembly objs comp)) ∧
    (∀ (pre : List (String × AsmNode S)) (nm : String) (self : S) (loc : S → S)
       (e : String) (post : List (String × AsmNode S))
       (comp : Except String (List S)),
      (extractAsmLoop pre).2 = false →
      extract_solids (Scene.assembly
          (pre ++ (nm, ⟨some (NodeObj.solidsObj self (Except.error e)), loc⟩) :: post)
          comp) =
        (extractAsmLoop pre).1) ∧
    (extract_solids (Scene.unknownScene : Scene S) = []) ∧
    (∀ e : String,
      extract_solids (Scene.assembly ([] : List (String × AsmNode S))
        (Except.error e)) = []) ∧
    (∀ e : String,
      extract_solids (Scene.workplaneScene (Except.error e) : Scene S) = []) ∧
    (∀ e : String,
      extract_solids (Scene.compoundScene (Except.error e) : Scene S) = []) := by
  refine ⟨?_, ?_, rfl, fun e => rfl, fun e => rfl, fun e => rfl⟩
  · intro nm loc e objs comp
    have h : extractAsmLoop
        ((nm, (⟨some (NodeObj.workplane (Except.error e)), loc⟩ : AsmNode S)) :: objs) =
        extractAsmLoop objs := by
      rw [extractAsmLoop_cons]
      simp [nodeParts]
    rw [extract_solids_assembly, extract_solids_assembly, h]
  · intro pre nm self loc e post comp hok
    rw [extract_solids_assembly,
      extractAsmLoop_append_abort nm self loc e post pre hok]
    simp

/-- Witness for C8: a prefix of one good node followed by a node whose
`Solids()` raises; the result is exactly the prefix parts. -/
theorem extract_solids_failure_policy_witness :
    (extractAsmLoop
        ([(("a"), ⟨some (NodeObj.bboxObj (5 : ℕ)), fun x => x⟩)])).2 = false ∧
    extract_solids (Scene.assembly
        (([(("a"), ⟨some (NodeObj.bboxObj (5 : ℕ)), fun x => x⟩)]) ++
          (("b"), ⟨some (NodeObj.solidsObj (7 : ℕ) (Except.error ("boom"))),
            fun x => x⟩) :: ([] : List (String × AsmNode ℕ)))
        (Except.ok ([] : List ℕ))) =
      (extractAsmLoop
        ([(("a"), ⟨some (NodeObj.bboxObj (5 : ℕ)), fun x => x⟩)])).1 :=
  ⟨rfl,
   extract_solids_failure_policy.2.1
     ([(("a"), ⟨some (NodeObj.bboxObj (5 : ℕ)), fun x => x⟩)])
     ("b") 7 (fun x => x) ("boom") [] (Except.ok []) rfl⟩

/-! ## Spec-level values of the stability check (C6, C10) -/

/-- The bounding box a part reports when the kernel call succeeds. -/
def bbOf {S : Type} (K : Kernel S) (s : S) : BBox :=
  (K.bbox s).toOption.getD ⟨0, 0, 0, 0, 0, 0⟩

/-- The centroid a part reports when the kernel call succeeds. -/
def centerOf {S : Type} (K : Kernel S) (s : S) : Point3 :=
  (K.center s).toOption.getD ⟨0, 0, 0⟩

/-- The parts with positive volume: exactly those the center-of-mass
accumulation keeps. -/
def positiveParts {S : Type} (K : Kernel S) (parts : List (NamedPart S)) :
    List (NamedPart S) :=
  parts.filter (fun p => decide (0 < get_solid_volume K p.solid))

/-- The accumulated total volume over the positive-volume parts. -/
def totalAccVolume {S : Type} (K : Kernel S) (parts : List (NamedPart S)) : ℚ :=
  ((positiveParts K parts).map (fun p => get_solid_volume K p.solid)).sum

/-- The volume-weighted X coordinate sum. -/
def comNumX {S : Type} (K : Kernel S) (parts : List (NamedPart S)) : ℚ :=
  ((positiveParts K parts).map
    (fun p => (centerOf K p.solid).x * get_solid_volume K p.solid)).sum

/-- The volume-weighted Y coordinate sum. -/
def comNumY {S : Type} (K : Kernel S) (parts : List (NamedPart S)) : ℚ :=
  ((positiveParts K parts).map
    (fun p => (centerOf K p.solid).y * get_solid_volume K p.solid)).sum

/-- The volume-weighted Z coordinate sum. -/
def comNumZ {S : Type} (K : Kernel S) (parts : List (NamedPart S)) : ℚ :=
  ((positiveParts K parts).map
    (fun p => (centerOf K p.solid).z * get_solid_volume K p.solid)).sum

/-- The volume-weighted combined center of mass. -/
def comOf {S : Type} (K : Kernel S) (parts : List (NamedPart S)) : ℚ × ℚ × ℚ :=
  (comNumX K parts / totalAccVolume K parts,
   comNumY K parts / totalAccVolume K parts,
   comNumZ K parts / totalAccVolume K parts)

/-- The global minimum Z over the parts' bounding boxes ("the ground"). -/
def groundMinZ {S : Type} (K : Kernel S) (parts : List (NamedPart S)) : ℚ :=
  listMin (parts.map (fun p => (bbOf K p.solid).zmin))

/-- The four bounding-box footprint corners. -/
def bbCorners (bb : BBox) : List (ℚ × ℚ) :=
  [(bb.xmin, bb.ymin), (bb.xmax, bb.ymin), (bb.xmin, bb.ymax), (bb.xmax, bb.ymax)]

/-- The support points: footprint corners of every part whose bounding
box reaches within the ground threshold. -/
def basePointsOf {S : Type} (K : Kernel S) (parts : List (NamedPart S))
    (ground_threshold : ℚ) : List (ℚ × ℚ) :=
  parts.flatMap (fun p =>
    if (bbOf K p.solid).zmin ≤ ground_threshold then bbCorners (bbOf K p.solid)
    else [])

/-- The axis-aligned support rectangle
`(base_min_x, base_max_x, base_min_y, base_max_y)`. -/
def supportRect {S : Type} (K : Kernel S) (parts : List (NamedPart S)) :
    ℚ × ℚ × ℚ × ℚ :=
  (listMin ((basePointsOf K parts (groundMinZ K parts + 1)).map Prod.fst),
   listMax ((basePointsOf K parts (groundMinZ K parts + 1)).map Prod.fst),
   listMin ((basePointsOf K parts (groundMinZ K parts + 1)).map Prod.snd),
   listMax ((basePointsOf K parts (groundMinZ K parts + 1)).map Prod.snd))

/-! ## Reduction lemmas for the stability folds -/

theorem stabilityAccum_go {S : Type} (K : Kernel S) :
    ∀ (parts : List (NamedPart S)) (a1 a2 a3 a4 : ℚ),
      (∀ p ∈ parts, 0 < get_solid_volume K p.solid →
        ∃ c, K.center p.solid = Except.ok c) →
      parts.foldlM (stabilityStep K) (a1, a2, a3, a4) =
        Except.ok (a1 + totalAccVolume K parts, a2 + comNumX K parts,
          a3 + comNumY K parts, a4 + comNumZ K parts) := by
  intro parts
  induction parts with
  | nil =>
    intro a1 a2 a3 a4 _
    simp [totalAccVolume, comNumX, comNumY, comNumZ, positiveParts]
    rfl
  | cons p rest ih =>
    intro a1 a2 a3 a4 h
    rw [List.foldlM_cons]
    by_cases hv : get_solid_volume K p.solid ≤ 0
    · have hstep : stabilityStep K (a1, a2, a3, a4) p = Except.ok (a1, a2, a3, a4) := by
        simp [stabilityStep, hv]
      rw [hstep]
      have hrec := ih a1 a2 a3 a4 (fun q hq => h q (List.mem_cons_of_mem _ hq))
      have hfilter : positiveParts K (p :: rest) = positiveParts K rest := by
        simp [positiveParts, List.filter_cons, not_lt.mpr hv]
      show rest.foldlM (stabilityStep K) (a1, a2, a3, a4) = _
      rw [hrec]
      simp [totalAccVolume, comNumX, comNumY, comNumZ, hfilter]
    · push_neg at hv
      rcases h p (List.mem_cons_self p rest) hv with ⟨c, hc⟩
      have hstep : stabilityStep K (a1, a2, a3, a4) p =
          Except.ok (a1 + get_solid_volume K p.solid,
            a2 + c.x * get_solid_volume K p.solid,
            a3 + c.y * get_solid_volume K p.solid,
            a4 + c.z * get_solid_volume K p.solid) := by
        simp [stabilityStep, hc, not_le.mpr hv]
      rw [hstep]
      have hrec := ih (a1 + get_solid_volume K p.solid)
        (a2 + c.x * get_solid_volume K p.solid)
        (a3 + c.y * get_solid_volume K p.solid)
        (a4 + c.z * get_solid_volume K p.solid)
        (fun q hq => h q (List.mem_cons_of_mem _ hq))
      have hfilter : positiveParts K (p :: rest) = p :: positiveParts K rest := by
        simp [positiveParts, List.filter_cons, hv]
      have hcOf : centerOf K p.solid = c := by
        unfold centerOf
        rw [hc]
        rfl
      show rest.foldlM (stabilityStep K) _ = _
      rw [hrec]
      simp [totalAccVolume, comNumX, comNumY, comNumZ, hfilter, hcOf, add_assoc]

theorem stabilityAccum_nonpos {S : Type} (K : Kernel S) :
    ∀ (parts : List (NamedPart S)) (acc : ℚ × ℚ × ℚ × ℚ),
      (∀ p ∈ parts, get_solid_volume K p.solid ≤ 0) →
      parts.foldlM (stabilityStep K) acc = Except.ok acc := by
  intro parts
  induction parts with
  | nil => intro acc _; rfl
  | cons p rest ih =>
    intro acc h
    rw [List.foldlM_cons]
    have hstep : stabilityStep K acc p = Except.ok acc := by
      simp [stabilityStep, h p (List.mem_cons_self p rest)]
    rw [hstep]
    exact ih acc (fun q hq => h q (List.mem_cons_of_mem _ hq))

theorem totalAccVolume_nonpos {S : Type} (K : Kernel S)
    (parts : List (NamedPart S)) (h : totalAccVolume K parts ≤ 0) :
    ∀ p ∈ parts, get_solid_volume K p.solid ≤ 0 := by
  intro p hp
  by_contra hpos
  push_neg at hpos
  refine absurd h (not_le.mpr ?_)
  have hmem : p ∈ positiveParts K parts :=
    List.mem_filter.mpr ⟨hp, by simpa using hpos⟩
  have hall : ∀ x ∈ (positiveParts K parts).map
      (fun q => get_solid_volume K q.solid), 0 < x := by
    intro x hx
    rw [List.mem_map] at hx
    rcases hx with ⟨q, hq, rfl⟩
    exact of_decide_eq_true (List.mem_filter.mp hq).2
  have hne : (positiveParts K parts).map
      (fun q => get_solid_volume K q.solid) ≠ [] := by
    intro hnil
    have := List.mem_map_of_mem (fun q => get_solid_volume K q.solid) hmem
    rw [hnil] at this
    exact absurd this (List.not_mem_nil _)
  exact List.sum_pos _ hall hne

theorem minZFold_go {S : Type} (K : Kernel S) :
    ∀ (parts : List (NamedPart S)) (m : ℚ),
      (∀ p ∈ parts, ∃ bb, K.bbox p.solid = Except.ok bb) →
      parts.foldlM (minZStep K) (some m) =
        Except.ok (some ((parts.map (fun p => (bbOf K p.solid).zmin)).foldl min m)) := by
  intro parts
  induction parts with
  | nil => intro m _; rfl
  | cons p rest ih =>
    intro m h
    rcases h p (List.mem_cons_self p rest) with ⟨bb, hbb⟩
    have hbbOf : bbOf K p.solid = bb := by
      unfold bbOf
      rw [hbb]
      rfl
    have hmin : (if bb.zmin < m then bb.zmin else m) = min m bb.zmin := by
      rcases lt_or_le bb.zmin m with hlt | hle
      · simp [hlt, min_eq_right hlt.le]
      · simp [not_lt.mpr hle, min_eq_left hle]
    have hstep : minZStep K (some m) p = Except.ok (some (min m bb.zmin)) := by
      simp only [minZStep, hbb]
      rw [← apply_ite some, hmin]
    rw [List.foldlM_cons, hstep]
    have hrec := ih (min m bb.zmin) (fun q hq => h q (List.mem_cons_of_mem _ hq))
    show rest.foldlM (minZStep K) (some (min m bb.zmin)) = _
    rw [hrec]
    simp [hbbOf]

theorem minZFold_ok {S : Type} (K : Kernel S) (p0 : NamedPart S)
    (rest : List (NamedPart S))
    (h : ∀ p ∈ (p0 :: rest), ∃ bb, K.bbox p.solid = Except.ok bb) :
    minZFold K (p0 :: rest) = Except.ok (some (groundMinZ K (p0 :: rest))) := by
  rcases h p0 (List.mem_cons_self p0 rest) with ⟨bb, hbb⟩
  have hbbOf : bbOf K p0.solid = bb := by
    unfold bbOf
    rw [hbb]
    rfl
  have hstep : minZStep K none p0 = Except.ok (some bb.zmin) := by
    simp [minZStep, hbb]
  unfold minZFold
  rw [List.foldlM_cons, hstep]
  have hrec := minZFold_go K rest bb.zmin (fun q hq => h q (List.mem_cons_of_mem _ hq))
  show rest.foldlM (minZStep K) (some bb.zmin) = _
  rw [hrec]
  simp [groundMinZ, listMin, hbbOf]

theorem basePointsFold_go {S : Type} (K : Kernel S) (gt : ℚ) :
    ∀ (parts : List (NamedPart S)) (pts : List (ℚ × ℚ)),
      (∀ p ∈ parts, ∃ bb, K.bbox p.solid = Except.ok bb) →
      parts.foldlM (basePointsStep K gt) pts =
        Except.ok (pts ++ basePointsOf K parts gt) := by
  intro parts
  induction parts with
  | nil => intro pts _; simp [basePointsOf]; rfl
  | cons p rest ih =>
    intro pts h
    rcases h p (List.mem_cons_self p rest) with ⟨bb, hbb⟩
    have hbbOf : bbOf K p.solid = bb := by
      unfold bbOf
      rw [hbb]
      rfl
    have hstep : basePointsStep K gt pts p =
        Except.ok (pts ++ (if bb.zmin ≤ gt then bbCorners bb else [])) := by
      by_cases hz : bb.zmin ≤ gt
      · simp [basePointsStep, hbb, hz, bbCorners]
      · simp [basePointsStep, hbb, hz]
    rw [List.foldlM_cons, hstep]
    have hrec := ih (pts ++ (if bb.zmin ≤ gt then bbCorners bb else []))
      (fun q hq => h q (List.mem_cons_of_mem _ hq))
    show rest.foldlM (basePointsStep K gt) _ = _
    rw [hrec]
    simp [basePointsOf, hbbOf, List.append_assoc]

theorem listMin_mem : ∀ (l : List ℚ), l ≠ [] → listMin l ∈ l := by
  have aux : ∀ (t : List ℚ) (x : ℚ), t.foldl min x ∈ x :: t := by
    intro t
    induction t with
    | nil => intro x; simp [List.foldl]
    | cons z t ih =>
      intro x
      have h := ih (min x z)
      rcases min_choice x z with hm | hm
      · rcases List.mem_cons.mp h with h1 | h1
        · rw [List.foldl_cons]
          rw [h1, hm]
          exact List.mem_cons_self _ _
        · exact List.mem_cons_of_mem _ (List.mem_cons_of_mem _ (by
            simpa using h1))
      · rcases List.mem_cons.mp h with h1 | h1
        · rw [List.foldl_cons, h1, hm]
          exact List.mem_cons_of_mem _ (List.mem_cons_self _ _)
        · exact List.mem_cons_of_mem _ (List.mem_cons_of_mem _ (by
            simpa using h1))
  intro l hne
  match l with
  | [] => exact absurd rfl hne
  | x :: t => exact aux t x

theorem basePointsOf_ne_nil {S : Type} (K : Kernel S)
    (parts : List (NamedPart S)) (hne : parts ≠ []) :
    basePointsOf K parts (groundMinZ K parts + 1) ≠ [] := by
  have hmapne : parts.map (fun p => (bbOf K p.solid).zmin) ≠ [] := by
    intro hnil
    exact hne (List.map_eq_nil_iff.mp hnil)
  have hmem : groundMinZ K parts ∈ parts.map (fun p => (bbOf K p.solid).zmin) :=
    listMin_mem _ hmapne
  rw [List.mem_map] at hmem
  rcases hmem with ⟨p, hp, hz⟩
  intro hnil
  have hcond : (bbOf K p.solid).zmin ≤ groundMinZ K parts + 1 := by
    rw [hz]
    linarith
  have hmem2 : ((bbOf K p.solid).xmin, (bbOf K p.solid).ymin) ∈
      basePointsOf K parts (groundMinZ K parts + 1) := by
    rw [basePointsOf, List.mem_flatMap]
    exact ⟨p, hp, by simp [hcond, bbCorners]⟩
  rw [hnil] at hmem2
  exact List.not_mem_nil _ hmem2

/-- The verdict of the main branch of the stability check, in terms of
the spec-level center of mass and support rectangle. -/
def stabilityVerdict {S : Type} (K : Kernel S) (parts : List (NamedPart S)) :
    TestResult :=
  let com := comOf K parts
  let rect := supportRect K parts
  let margin_x := min (com.1 - rect.1) (rect.2.1 - com.1)
  let margin_y := min (com.2.1 - rect.2.2.1) (rect.2.2.2 - com.2.1)
  let min_margin := min margin_x margin_y
  let details := Details.stabilityReport
    [pyRound2 com.1, pyRound2 com.2.1, pyRound2 com.2.2]
    [pyRound2 rect.1, pyRound2 rect.2.1]
    [pyRound2 rect.2.2.1, pyRound2 rect.2.2.2]
    (pyRound2 min_margin)
  if rect.1 ≤ com.1 ∧ com.1 ≤ rect.2.1 ∧ rect.2.2.1 ≤ com.2.1 ∧ com.2.1 ≤ rect.2.2.2 then
    ⟨("Static Stability"), TestStatus.passed,
     ("Design is stable (CoM is ") ++ fmtFixed 1 min_margin ++ ("mm inside base)"),
     some details, none⟩
  else
    ⟨("Static Stability"), TestStatus.failed,
     ("Design is unstable! Center of Mass is outside the base."),
     some details,
     some (("Center of Mass: [") ++ fmtFixed 2 com.1 ++ (", ") ++
       fmtFixed 2 com.2.1 ++ (", ") ++ fmtFixed 2 com.2.2 ++
       ("]\nBase Bounds: X[") ++ fmtFixed 2 rect.1 ++ (", ") ++
       fmtFixed 2 rect.2.1 ++ ("], Y[") ++ fmtFixed 2 rect.2.2.1 ++
       (", ") ++ fmtFixed 2 rect.2.2.2 ++ ("]"))⟩

/-- On the main branch (geometry readable, positive total volume) the
stability body returns the spec-level verdict. -/
theorem stabilityBody_main {S : Type} (K : Kernel S) (result : Scene S)
    (p0 : NamedPart S) (rest : List (NamedPart S))
    (hps : extract_solids result = p0 :: rest)
    (hc : ∀ p ∈ (p0 :: rest), 0 < get_solid_volume K p.solid →
      ∃ c, K.center p.solid = Except.ok c)
    (hbb : ∀ p ∈ (p0 :: rest), ∃ bb, K.bbox p.solid = Except.ok bb)
    (hpos : 0 < totalAccVolume K (p0 :: rest)) :
    stabilityBody K result = Except.ok (stabilityVerdict K (p0 :: rest)) := by
  have hacc : stabilityAccum K (p0 :: rest) =
      Except.ok (totalAccVolume K (p0 :: rest), comNumX K (p0 :: rest),
        comNumY K (p0 :: rest), comNumZ K (p0 :: rest)) := by
    unfold stabilityAccum
    rw [stabilityAccum_go K (p0 :: rest) 0 0 0 0 hc]
    simp
  have hbase : basePointsFold K (p0 :: rest) (groundMinZ K (p0 :: rest) + 1) =
      Except.ok (basePointsOf K (p0 :: rest) (groundMinZ K (p0 :: rest) + 1)) := by
    unfold basePointsFold
    rw [basePointsFold_go K _ (p0 :: rest) [] hbb]
    simp
  unfold stabilityBody
  rw [hps]
  simp only [List.isEmpty_cons, Bool.false_eq_true, if_false]
  rw [hacc]
  simp only
  rw [if_neg (not_le.mpr hpos)]
  rw [minZFold_ok K p0 rest hbb]
  simp only [Option.getD_some]
  rw [hbase]
  simp only
  rw [if_neg (by
    simp only [List.isEmpty_eq_true]
    exact basePointsOf_ne_nil K (p0 :: rest) (List.cons_ne_nil p0 rest))]
  simp only [stabilityVerdict, comOf, supportRect]
  rw [apply_ite Except.ok]
  exact if_congr (by simp [and_assoc]) rfl rfl

/-! ## Theorem: the floating-object branch is unreachable (C10) -/

/-- C10: with a non-empty part list whose bounding boxes are all
computable, the "floating object" FAILED branch can never be returned:
the ground level is the minimum of the parts' own bounding-box minimum
Z values, so the minimizing part is always within the 1.0mm ground
threshold and contributes support points. -/
theorem stability_floating_branch_unreachable {S : Type} (K : Kernel S)
    (result : Scene S)
    (hne : extract_solids result ≠ [])
    (hbb : ∀ p ∈ extract_solids result, ∃ bb, K.bbox p.solid = Except.ok bb) :
    test_static_stability K result ≠ floatingObjectResult := by
  rcases hps : extract_solids result with _ | ⟨p0, rest⟩
  · exact absurd hps hne
  rw [hps] at hbb
  unfold test_static_stability stabilityBody
  rw [hps]
  simp only [List.isEmpty_cons, Bool.false_eq_true, if_false]
  cases hacc : stabilityAccum K (p0 :: rest) with
  | error e =>
    simp [floatingObjectResult]
  | ok acc =>
    simp only
    by_cases htot : acc.1 ≤ 0
    · rw [if_pos htot]
      simp [stabSkip, floatingObjectResult]
    · rw [if_neg htot]
      rw [minZFold_ok K p0 rest hbb]
      simp only [Option.getD_some]
      have hbase : basePointsFold K (p0 :: rest) (groundMinZ K (p0 :: rest) + 1) =
          Except.ok (basePointsOf K (p0 :: rest) (groundMinZ K (p0 :: rest) + 1)) := by
        unfold basePointsFold
        rw [basePointsFold_go K _ (p0 :: rest) [] hbb]
        simp
      rw [hbase]
      simp only
      rw [if_neg (by
        simp only [List.isEmpty_eq_true]
        exact basePointsOf_ne_nil K (p0 :: rest) (List.cons_ne_nil p0 rest))]
      split
      · rename_i r heq
        split at heq
        · injection heq with h
          subst h
          simp [floatingObjectResult]
        · injection heq with h
          subst h
          simp [floatingObjectResult]
      · simp [floatingObjectResult]

/-! ## Theorem: the static stability check (C6) -/

/-- C6: on a non-empty extracted part list the stability check is
SKIPPED exactly when the accumulated volume over positive-volume parts
is non-positive (non-positive parts are excluded but harmless);
otherwise (with readable geometry) it PASSES precisely when both X and
Y of the volume-weighted center of mass lie within the support
rectangle spanned by the footprint corners of the ground-touching
parts, FAILS otherwise, and reports the minimum per-axis margin. -/
theorem test_static_stability_spec {S : Type} (K : Kernel S) (result : Scene S)
    (parts : List (NamedPart S)) (hparts : extract_solids result = parts)
    (hne : parts ≠ []) :
    (totalAccVolume K parts ≤ 0 →
      test_static_stability K result =
        stabSkip ("Could not calculate volume of parts")) ∧
    ((∀ p ∈ parts, 0 < get_solid_volume K p.solid →
        ∃ c, K.center p.solid = Except.ok c) →
     (∀ p ∈ parts, ∃ bb, K.bbox p.solid = Except.ok bb) →
     0 < totalAccVolume K parts →
     (((test_static_stability K result).status = TestStatus.passed ↔
        ((supportRect K parts).1 ≤ (comOf K parts).1 ∧
         (comOf K parts).1 ≤ (supportRect K parts).2.1 ∧
         (supportRect K parts).2.2.1 ≤ (comOf K parts).2.1 ∧
         (comOf K parts).2.1 ≤ (supportRect K parts).2.2.2)) ∧
      ((test_static_stability K result).status = TestStatus.failed ↔
        ¬ ((supportRect K parts).1 ≤ (comOf K parts).1 ∧
           (comOf K parts).1 ≤ (supportRect K parts).2.1 ∧
           (supportRect K parts).2.2.1 ≤ (comOf K parts).2.1 ∧
           (comOf K parts).2.1 ≤ (supportRect K parts).2.2.2)) ∧
      (test_static_stability K result).details =
        some (Details.stabilityReport
          [pyRound2 (comOf K parts).1, pyRound2 (comOf K parts).2.1,
           pyRound2 (comOf K parts).2.2]
          [pyRound2 (supportRect K parts).1, pyRound2 (supportRect K parts).2.1]
          [pyRound2 (supportRect K parts).2.2.1,
           pyRound2 (supportRect K parts).2.2.2]
          (pyRound2 (min
            (min ((comOf K parts).1 - (supportRect K parts).1)
                 ((supportRect K parts).2.1 - (comOf K parts).1))
            (min ((comOf K parts).2.1 - (supportRect K parts).2.2.1)
                 ((supportRect K parts).2.2.2 - (comOf K parts).2.1))))))) := by
  obtain ⟨p0, rest, rfl⟩ := List.exists_cons_of_ne_nil hne
  constructor
  · intro htot
    have hall := totalAccVolume_nonpos K (p0 :: rest) htot
    have hacc : stabilityAccum K (p0 :: rest) = Except.ok (0, 0, 0, 0) :=
      stabilityAccum_nonpos K (p0 :: rest) (0, 0, 0, 0) hall
    have hbody : stabilityBody K result =
        Except.ok (stabSkip ("Could not calculate volume of parts")) := by
      unfold stabilityBody
      rw [hparts]
      simp only [List.isEmpty_cons, Bool.false_eq_true, if_false]
      rw [hacc]
      simp only
      rw [if_pos (by norm_num)]
    unfold test_static_stability
    rw [hbody]
  · intro hc hbb hpos
    have hbody := stabilityBody_main K result p0 rest hparts hc hbb hpos
    have htest : test_static_stability K result =
        stabilityVerdict K (p0 :: rest) := by
      unfold test_static_stability
      rw [hbody]
    rw [htest]
    by_cases hst : ((supportRect K (p0 :: rest)).1 ≤ (comOf K (p0 :: rest)).1 ∧
        (comOf K (p0 :: rest)).1 ≤ (supportRect K (p0 :: rest)).2.1 ∧
        (supportRect K (p0 :: rest)).2.2.1 ≤ (comOf K (p0 :: rest)).2.1 ∧
        (comOf K (p0 :: rest)).2.1 ≤ (supportRect K (p0 :: rest)).2.2.2)
    · refine ⟨?_, ?_, ?_⟩
      · simp only [stabilityVerdict]
        rw [if_pos hst]
        exact ⟨fun _ => hst, fun _ => rfl⟩
      · simp only [stabilityVerdict]
        rw [if_pos hst]
        constructor
        · intro hfail
          simp at hfail
        · intro hn
          exact absurd hst hn
      · simp only [stabilityVerdict]
        rw [if_pos hst]
    · refine ⟨?_, ?_, ?_⟩
      · simp only [stabilityVerdict]
        rw [if_neg hst]
        constructor
        · intro hpass
          simp at hpass
        · intro hyes
          exact absurd hyes hst
      · simp only [stabilityVerdict]
        rw [if_neg hst]
        exact ⟨fun _ => hst, fun _ => rfl⟩
      · simp only [stabilityVerdict]
        rw [if_neg hst]

/-- A kernel over unit solids with fully readable geometry: volume
1000, centroid on the axis, a 28x28 footprint resting on the ground. -/
def unitKernelStable : Kernel Unit where
  dims := fun _ => none
  volume := fun _ => some 1000
  center := fun _ => Except.ok ⟨0, 0, 10⟩
  bbox := fun _ => Except.ok ⟨-14, 14, -14, 14, 0, 100⟩
  intersect := fun _ _ => none
  dist := fun _ _ => none

/-- A kernel over unit solids reporting zero volume for every part. -/
def unitKernelNoVol : Kernel Unit where
  dims := fun _ => none
  volume := fun _ => some 0
  center := fun _ => Except.ok ⟨0, 0, 10⟩
  bbox := fun _ => Except.ok ⟨-14, 14, -14, 14, 0, 100⟩
  intersect := fun _ _ => none
  dist := fun _ _ => none

/-- A single bare-solid scene. -/
def sceneUnit : Scene Unit := Scene.directSolid ()

/-- The part list extracted from `sceneUnit`. -/
def unitPartList : List (NamedPart Unit) := [⟨("part_1"), ()⟩]

/-- Witness for C10 on the single resting part. -/
theorem stability_floating_branch_unreachable_witness :
    (extract_solids sceneUnit ≠ ([] : List (NamedPart Unit))) ∧
    (∀ p ∈ extract_solids sceneUnit,
      ∃ bb, unitKernelStable.bbox p.solid = Except.ok bb) ∧
    test_static_stability unitKernelStable sceneUnit ≠ floatingObjectResult := by
  have h1 : extract_solids sceneUnit ≠ ([] : List (NamedPart Unit)) := by decide
  have h2 : ∀ p ∈ extract_solids sceneUnit,
      ∃ bb, unitKernelStable.bbox p.solid = Except.ok bb :=
    fun p _ => ⟨⟨-14, 14, -14, 14, 0, 100⟩, rfl⟩
  exact ⟨h1, h2,
    stability_floating_branch_unreachable unitKernelStable sceneUnit h1 h2⟩

/-- Witness for C6, exercising both the zero-volume SKIPPED branch and
the main PASSED/FAILED branch at concrete single-part inputs. -/
theorem test_static_stability_spec_witness :
    ((extract_solids sceneUnit = unitPartList) ∧ unitPartList ≠ [] ∧
      totalAccVolume unitKernelNoVol unitPartList ≤ 0 ∧
      test_static_stability unitKernelNoVol sceneUnit =
        stabSkip ("Could not calculate volume of parts")) ∧
    ((∀ p ∈ unitPartList, 0 < get_solid_volume unitKernelStable p.solid →
        ∃ c, unitKernelStable.center p.solid = Except.ok c) ∧
     (∀ p ∈ unitPartList, ∃ bb, unitKernelStable.bbox p.solid = Except.ok bb) ∧
     0 < totalAccVolume unitKernelStable unitPartList ∧
     (((test_static_stability unitKernelStable sceneUnit).status = TestStatus.passed ↔
        ((supportRect unitKernelStable unitPartList).1 ≤
            (comOf unitKernelStable unitPartList).1 ∧
         (comOf unitKernelStable unitPartList).1 ≤
            (supportRect unitKernelStable unitPartList).2.1 ∧
         (supportRect unitKernelStable unitPartList).2.2.1 ≤
            (comOf unitKernelStable unitPartList).2.1 ∧
         (comOf unitKernelStable unitPartList).2.1 ≤
            (supportRect unitKernelStable unitPartList).2.2.2)) ∧
      ((test_static_stability unitKernelStable sceneUnit).status = TestStatus.failed ↔
        ¬ ((supportRect unitKernelStable unitPartList).1 ≤
              (comOf unitKernelStable unitPartList).1 ∧
           (comOf unitKernelStable unitPartList).1 ≤
              (supportRect unitKernelStable unitPartList).2.1 ∧
           (supportRect unitKernelStable unitPartList).2.2.1 ≤
              (comOf unitKernelStable unitPartList).2.1 ∧
           (comOf unitKernelStable unitPartList).2.1 ≤
              (supportRect unitKernelStable unitPartList).2.2.2)) ∧
      (test_static_stability unitKernelStable sceneUnit).details =
        some (Details.stabilityReport
          [pyRound2 (comOf unitKernelStable unitPartList).1,
           pyRound2 (comOf unitKernelStable unitPartList).2.1,
           pyRound2 (comOf unitKernelStable unitPartList).2.2]
          [pyRound2 (supportRect unitKernelStable unitPartList).1,
           pyRound2 (supportRect unitKernelStable unitPartList).2.1]
          [pyRound2 (supportRect unitKernelStable unitPartList).2.2.1,
           pyRound2 (supportRect unitKernelStable unitPartList).2.2.2]
          (pyRound2 (min
            (min ((comOf unitKernelStable unitPartList).1 -
                    (supportRect unitKernelStable unitPartList).1)
                 ((supportRect unitKernelStable unitPartList).2.1 -
                    (comOf unitKernelStable unitPartList).1))
            (min ((comOf unitKernelStable unitPartList).2.1 -
                    (supportRect unitKernelStable unitPartList).2.2.1)
                 ((supportRect unitKernelStable unitPartList).2.2.2 -
                    (comOf unitKernelStable unitPartList).2.1))))))) := by
  have hne : unitPartList ≠ [] := by decide
  have htot0 : totalAccVolume unitKernelNoVol unitPartList ≤ 0 := by
    norm_num [totalAccVolume, positiveParts, get_solid_volume, unitKernelNoVol,
      unitPartList]
  have hc : ∀ p ∈ unitPartList, 0 < get_solid_volume unitKernelStable p.solid →
      ∃ c, unitKernelStable.center p.solid = Except.ok c :=
    fun p _ _ => ⟨⟨0, 0, 10⟩, rfl⟩
  have hbb : ∀ p ∈ unitPartList,
      ∃ bb, unitKernelStable.bbox p.solid = Except.ok bb :=
    fun p _ => ⟨⟨-14, 14, -14, 14, 0, 100⟩, rfl⟩
  have hpos : 0 < totalAccVolume unitKernelStable unitPartList := by
    norm_num [totalAccVolume, positiveParts, get_solid_volume, unitKernelStable,
      unitPartList]
  exact ⟨⟨rfl, hne, htot0,
      (test_static_stability_spec unitKernelNoVol sceneUnit unitPartList rfl hne).1 htot0⟩,
    hc, hbb, hpos,
    (test_static_stability_spec unitKernelStable sceneUnit unitPartList rfl hne).2 hc hbb hpos⟩

/-! ## BFS infrastructure lemmas (C5) -/

theorem visAt_set_true (vis : List Bool) (v x : ℕ) :
    visAt (vis.set v true) x = true ↔ (x = v ∨ visAt vis x = true) := by
  unfold visAt
  by_cases hxv : x = v
  · subst hxv
    by_cases hx : x < vis.length
    · rw [List.getD_eq_getElem?_getD, List.getElem?_set_self (by simpa using hx)]
      simp
    · rw [List.getD_eq_getElem?_getD, List.getD_eq_getElem?_getD,
        List.getElem?_eq_none (by simpa using le_of_not_lt hx),
        List.getElem?_eq_none (by simpa [List.length_set] using le_of_not_lt hx)]
      simp
  · rw [List.getD_eq_getElem?_getD, List.getD_eq_getElem?_getD,
      List.getElem?_set_ne (fun h => hxv h.symm)]
    simp [hxv]

theorem visAt_replicate_false (n w : ℕ) (hw : w < n) :
    visAt (List.replicate n false) w = false := by
  unfold visAt
  rw [List.getD_eq_getElem?_getD, List.getElem?_replicate]
  simp [hw]

theorem processNeighbors_cons (q : List ℕ) (vis : List Bool) (v : ℕ)
    (rest : List ℕ) :
    processNeighbors q vis (v :: rest) =
      processNeighbors (bfsStep (q, vis) v).1 (bfsStep (q, vis) v).2 rest := rfl

theorem processNeighbors_nil (q : List ℕ) (vis : List Bool) :
    processNeighbors q vis [] = (q, vis) := rfl

theorem processNeighbors_len :
    ∀ (nbrs q : List ℕ) (vis : List Bool),
      (processNeighbors q vis nbrs).2.length = vis.length := by
  intro nbrs
  induction nbrs with
  | nil => intro q vis; rfl
  | cons v rest ih =>
    intro q vis
    rw [processNeighbors_cons]
    unfold bfsStep
    by_cases hv : visAt vis v = true
    · simp only [hv, if_true]
      exact ih q vis
    · simp only [hv, if_false]
      rw [ih]
      simp

theorem processNeighbors_mono :
    ∀ (nbrs q : List ℕ) (vis : List Bool) (w : ℕ),
      visAt vis w = true → visAt (processNeighbors q vis nbrs).2 w = true := by
  intro nbrs
  induction nbrs with
  | nil => intro q vis w hw; exact hw
  | cons v rest ih =>
    intro q vis w hw
    rw [processNeighbors_cons]
    unfold bfsStep
    by_cases hv : visAt vis v = true
    · simp only [hv, if_true]
      exact ih q vis w hw
    · simp only [hv, if_false]
      exact ih _ _ w ((visAt_set_true vis v w).mpr (Or.inr hw))

theorem processNeighbors_visits_nbrs :
    ∀ (nbrs q : List ℕ) (vis : List Bool),
      ∀ v ∈ nbrs, visAt (processNeighbors q vis nbrs).2 v = true := by
  intro nbrs
  induction nbrs with
  | nil => intro q vis v hv; exact absurd hv (List.not_mem_nil v)
  | cons u rest ih =>
    intro q vis v hv
    rw [processNeighbors_cons]
    rcases List.mem_cons.mp hv with rfl | hv'
    · unfold bfsStep
      by_cases hu : visAt vis v = true
      · simp only [hu, if_true]
        exact processNeighbors_mono rest q vis v hu
      · simp only [hu, if_false]
        exact processNeighbors_mono rest _ _ v
          ((visAt_set_true vis v v).mpr (Or.inl rfl))
    · exact ih _ _ v hv'

theorem processNeighbors_queue_sub :
    ∀ (nbrs q : List ℕ) (vis : List Bool) (x : ℕ),
      x ∈ q → x ∈ (processNeighbors q vis nbrs).1 := by
  intro nbrs
  induction nbrs with
  | nil => intro q vis x hx; exact hx
  | cons v rest ih =>
    intro q vis x hx
    rw [processNeighbors_cons]
    unfold bfsStep
    by_cases hv : visAt vis v = true
    · simp only [hv, if_true]
      exact ih q vis x hx
    · simp only [hv, if_false]
      exact ih _ _ x (List.mem_append_left _ hx)

theorem processNeighbors_queue_origin :
    ∀ (nbrs q : List ℕ) (vis : List Bool) (x : ℕ),
      x ∈ (processNeighbors q vis nbrs).1 → x ∈ q ∨ x ∈ nbrs := by
  intro nbrs
  induction nbrs with
  | nil => intro q vis x hx; exact Or.inl hx
  | cons v rest ih =>
    intro q vis x hx
    rw [processNeighbors_cons] at hx
    unfold bfsStep at hx
    by_cases hv : visAt vis v = true
    · simp only [hv, if_true] at hx
      rcases ih q vis x hx with h | h
      · exact Or.inl h
      · exact Or.inr (List.mem_cons_of_mem _ h)
    · simp only [hv, if_false] at hx
      rcases ih _ _ x hx with h | h
      · rcases List.mem_append.mp h with h' | h'
        · exact Or.inl h'
        · rcases List.mem_singleton.mp h' with rfl
          exact Or.inr (List.mem_cons_self _ _)
      · exact Or.inr (List.mem_cons_of_mem _ h)

theorem processNeighbors_vis_origin :
    ∀ (nbrs q : List ℕ) (vis : List Bool) (w : ℕ),
      visAt (processNeighbors q vis nbrs).2 w = true →
      visAt vis w = true ∨ w ∈ nbrs := by
  intro nbrs
  induction nbrs with
  | nil => intro q vis w hw; exact Or.inl hw
  | cons v rest ih =>
    intro q vis w hw
    rw [processNeighbors_cons] at hw
    unfold bfsStep at hw
    by_cases hv : visAt vis v = true
    · simp only [hv, if_true] at hw
      rcases ih q vis w hw with h | h
      · exact Or.inl h
      · exact Or.inr (List.mem_cons_of_mem _ h)
    · simp only [hv, if_false] at hw
      rcases ih _ _ w hw with h | h
      · rcases (visAt_set_true vis v w).mp h with rfl | h'
        · exact Or.inr (List.mem_cons_self _ _)
        · exact Or.inl h'
      · exact Or.inr (List.mem_cons_of_mem _ h)

theorem processNeighbors_new_in_queue :
    ∀ (nbrs q : List ℕ) (vis : List Bool) (w : ℕ),
      visAt (processNeighbors q vis nbrs).2 w = true →
      visAt vis w = true ∨ w ∈ (processNeighbors q vis nbrs).1 := by
  intro nbrs
  induction nbrs with
  | nil => intro q vis w hw; exact Or.inl hw
  | cons v rest ih =>
    intro q vis w hw
    rw [processNeighbors_cons] at hw ⊢
    unfold bfsStep at hw ⊢
    by_cases hv : visAt vis v = true
    · simp only [hv, if_true] at hw ⊢
      exact ih q vis w hw
    · simp only [hv, if_false] at hw ⊢
      rcases ih _ _ w hw with h | h
      · rcases (visAt_set_true vis v w).mp h with rfl | h'
        · exact Or.inr (processNeighbors_queue_sub rest _ _ w
            (List.mem_append_right _ (List.mem_singleton_self w)))
        · exact Or.inl h'
      · exact Or.inr h

theorem processNeighbors_queue_vis :
    ∀ (nbrs q : List ℕ) (vis : List Bool),
      (∀ u ∈ q, visAt vis u = true) →
      ∀ u ∈ (processNeighbors q vis nbrs).1,
        visAt (processNeighbors q vis nbrs).2 u = true := by
  intro nbrs
  induction nbrs with
  | nil => intro q vis hq u hu; exact hq u hu
  | cons v rest ih =>
    intro q vis hq u hu
    rw [processNeighbors_cons] at hu ⊢
    unfold bfsStep at hu ⊢
    by_cases hv : visAt vis v = true
    · simp only [hv, if_true] at hu ⊢
      exact ih q vis hq u hu
    · simp only [hv, if_false] at hu ⊢
      refine ih _ _ ?_ u hu
      intro x hx
      rcases List.mem_append.mp hx with h | h
      · exact (visAt_set_true vis v x).mpr (Or.inr (hq x h))
      · have hxv : x = v := List.mem_singleton.mp h
        rw [hxv]
        exact (visAt_set_true vis v v).mpr (Or.inl rfl)

/-- The BFS loop invariant: starting from a queue of visited,
reachable nodes whose unprocessed members are exactly the queue, the
loop preserves length, grows the visited set monotonically, visits
only `R`-nodes (for any `R` closed under edges), and ends with a
visited set closed under edges. -/
theorem bfsLoop_spec (adj : List (List ℕ)) (n : ℕ)
    (Hn : ∀ a b, b ∈ adjGet adj a → b < n)
    (R : ℕ → Prop) (hRclosed : ∀ a b, R a → b ∈ adjGet adj a → R b) :
    ∀ (queue : List ℕ) (visited : List Bool),
      visited.length = n →
      (∀ u ∈ queue, u < n) →
      (∀ u ∈ queue, visAt visited u = true) →
      (∀ u ∈ queue, R u) →
      (∀ w, w < n → visAt visited w = true → R w) →
      (∀ w, w < n → visAt visited w = true →
        w ∈ queue ∨ ∀ v ∈ adjGet adj w, visAt visited v = true) →
      ((bfsLoop adj queue visited).length = n ∧
       (∀ w, visAt visited w = true → visAt (bfsLoop adj queue visited) w = true) ∧
       (∀ w, w < n → visAt (bfsLoop adj queue visited) w = true → R w) ∧
       (∀ w, w < n → visAt (bfsLoop adj queue visited) w = true →
         ∀ v ∈ adjGet adj w, visAt (bfsLoop adj queue visited) v = true)) := by
  intro queue visited
  induction queue, visited using bfsLoop.induct adj with
  | case1 visited =>
    intro hlen hq0 hq1 hqR hvisR hclose
    rw [show bfsLoop adj [] visited = visited from by simp [bfsLoop]]
    refine ⟨hlen, fun w hw => hw, hvisR, ?_⟩
    intro w hwn hwvis v hv
    rcases hclose w hwn hwvis with h | h
    · exact absurd h (List.not_mem_nil w)
    · exact h v hv
  | case2 visited u rest ih =>
    intro hlen hq0 hq1 hqR hvisR hclose
    rw [show bfsLoop adj (u :: rest) visited =
      bfsLoop adj (processNeighbors rest visited (adjGet adj u)).1
        (processNeighbors rest visited (adjGet adj u)).2 from by
      simp [bfsLoop]]
    have hun : u < n := hq0 u (List.mem_cons_self u rest)
    have huR : R u := hqR u (List.mem_cons_self u rest)
    have h1 : (processNeighbors rest visited (adjGet adj u)).2.length = n := by
      rw [processNeighbors_len]
      exact hlen
    have h2 : ∀ x ∈ (processNeighbors rest visited (adjGet adj u)).1, x < n := by
      intro x hx
      rcases processNeighbors_queue_origin (adjGet adj u) rest visited x hx with h | h
      · exact hq0 x (List.mem_cons_of_mem _ h)
      · exact Hn u x h
    have h3 : ∀ x ∈ (processNeighbors rest visited (adjGet adj u)).1,
        visAt (processNeighbors rest visited (adjGet adj u)).2 x = true := by
      intro x hx
      refine processNeighbors_queue_vis (adjGet adj u) rest visited ?_ x hx
      intro y hy
      exact hq1 y (List.mem_cons_of_mem _ hy)
    have h4 : ∀ x ∈ (processNeighbors rest visited (adjGet adj u)).1, R x := by
      intro x hx
      rcases processNeighbors_queue_origin (adjGet adj u) rest visited x hx with h | h
      · exact hqR x (List.mem_cons_of_mem _ h)
      · exact hRclosed u x huR h
    have h5 : ∀ w, w < n →
        visAt (processNeighbors rest visited (adjGet adj u)).2 w = true → R w := by
      intro w hwn hwvis
      rcases processNeighbors_vis_origin (adjGet adj u) rest visited w hwvis with h | h
      · exact hvisR w hwn h
      · exact hRclosed u w huR h
    have h6 : ∀ w, w < n →
        visAt (processNeighbors rest visited (adjGet adj u)).2 w = true →
        w ∈ (processNeighbors rest visited (adjGet adj u)).1 ∨
          ∀ v ∈ adjGet adj w,
            visAt (processNeighbors rest visited (adjGet adj u)).2 v = true := by
      intro w hwn hwvis
      by_cases hwold : visAt visited w = true
      · rcases hclose w hwn hwold with hmem | hall
        · rcases List.mem_cons.mp hmem with rfl | hmem'
          · exact Or.inr (fun v hv =>
              processNeighbors_visits_nbrs (adjGet adj w) rest visited v hv)
          · exact Or.inl (processNeighbors_queue_sub (adjGet adj u) rest visited w hmem')
        · exact Or.inr (fun v hv =>
            processNeighbors_mono (adjGet adj u) rest visited v (hall v hv))
      · rcases processNeighbors_new_in_queue (adjGet adj u) rest visited w hwvis with h | h
        · exact absurd h hwold
        · exact Or.inl h
    obtain ⟨ihlen, ihmono, ihsound, ihclosed⟩ := ih h1 h2 h3 h4 h5 h6
    refine ⟨ihlen, ?_, ihsound, ihclosed⟩
    intro w hw
    exact ihmono w (processNeighbors_mono (adjGet adj u) rest visited w hw)

theorem adjGet_mem_lt (adj : List (List ℕ)) (a b : ℕ)
    (h : b ∈ adjGet adj a) : a < adj.length := by
  by_contra hge
  push_neg at hge
  unfold adjGet at h
  rw [List.getD_eq_getElem?_getD, List.getElem?_eq_none (by simpa using hge)] at h
  exact absurd h (List.not_mem_nil b)

/-- BFS from node 0 visits exactly the nodes reachable along adjacency
edges. -/
theorem bfsVisited_correct (adj : List (List ℕ)) (n : ℕ)
    (hadjlen : adj.length = n)
    (Hn : ∀ a b, b ∈ adjGet adj a → b < n)
    (h0 : 0 < n) :
    (bfsVisited adj n).length = n ∧
    ∀ i, i < n → (visAt (bfsVisited adj n) i = true ↔
      Relation.ReflTransGen (fun a b => b ∈ adjGet adj a) 0 i) := by
  have hbv : bfsVisited adj n =
      bfsLoop adj [0] ((List.replicate n false).set 0 true) := rfl
  have hRclosed : ∀ a b, Relation.ReflTransGen (fun a b => b ∈ adjGet adj a) 0 a →
      b ∈ adjGet adj a →
      Relation.ReflTransGen (fun a b => b ∈ adjGet adj a) 0 b :=
    fun a b ha he => Relation.ReflTransGen.tail ha he
  have hlen0 : ((List.replicate n false).set 0 true).length = n := by simp
  have hvis0of : ∀ w, w < n →
      visAt ((List.replicate n false).set 0 true) w = true → w = 0 := by
    intro w hw hv
    rcases (visAt_set_true _ 0 w).mp hv with h | h
    · exact h
    · rw [visAt_replicate_false n w hw] at h
      exact absurd h (by simp)
  have hspec := bfsLoop_spec adj n Hn
    (Relation.ReflTransGen (fun a b => b ∈ adjGet adj a) 0) hRclosed
    [0] ((List.replicate n false).set 0 true)
    hlen0
    (fun u hu => by
      rcases List.mem_singleton.mp hu with rfl
      exact h0)
    (fun u hu => by
      rcases List.mem_singleton.mp hu with rfl
      exact (visAt_set_true _ 0 0).mpr (Or.inl rfl))
    (fun u hu => by
      rcases List.mem_singleton.mp hu with rfl
      exact Relation.ReflTransGen.refl)
    (fun w hw hv => by
      rw [hvis0of w hw hv])
    (fun w hw hv => Or.inl (by
      rw [hvis0of w hw hv]
      exact List.mem_singleton_self 0))
  obtain ⟨hlenf, hmono, hsound, hclosed⟩ := hspec
  rw [← hbv] at hlenf hmono hsound hclosed
  have hcompl : ∀ i, Relation.ReflTransGen (fun a b => b ∈ adjGet adj a) 0 i →
      visAt (bfsVisited adj n) i = true := by
    intro i hr
    induction hr with
    | refl => exact hmono 0 ((visAt_set_true _ 0 0).mpr (Or.inl rfl))
    | tail h e ih =>
      rename_i b c
      have hb_lt : b < n := by
        have := adjGet_mem_lt adj b c e
        rwa [hadjlen] at this
      exact hclosed b hb_lt ih c e
  exact ⟨hlenf, fun i hin => ⟨fun hv => hsound i hin hv, fun hr => hcompl i hr⟩⟩

/-! ## Adjacency characterization (C5) -/

theorem adjGet_set_self (adj : List (List ℕ)) (i : ℕ) (l : List ℕ)
    (hi : i < adj.length) : adjGet (adj.set i l) i = l := by
  unfold adjGet
  rw [List.getD_eq_getElem?_getD, List.getElem?_set_self (by simpa using hi)]
  rfl

theorem adjGet_set_ne (adj : List (List ℕ)) (i x : ℕ) (l : List ℕ)
    (h : i ≠ x) : adjGet (adj.set i l) x = adjGet adj x := by
  unfold adjGet
  rw [List.getD_eq_getElem?_getD, List.getElem?_set_ne h,
    ← List.getD_eq_getElem?_getD]

theorem pushEdge_length (adj : List (List ℕ)) (i j : ℕ) :
    (pushEdge adj i j).length = adj.length := by
  simp [pushEdge]

theorem adjGet_replicate (n k : ℕ) :
    adjGet (List.replicate n ([] : List ℕ)) k = [] := by
  unfold adjGet
  rw [List.getD_eq_getElem?_getD, List.getElem?_replicate]
  by_cases h : k < n <;> simp [h]

theorem adjGet_pushEdge (adj : List (List ℕ)) (i j : ℕ)
    (hi : i < adj.length) (hj : j < adj.length) (hij : i ≠ j) (k m : ℕ) :
    m ∈ adjGet (pushEdge adj i j) k ↔
      (m ∈ adjGet adj k ∨ (k = i ∧ m = j) ∨ (k = j ∧ m = i)) := by
  unfold pushEdge
  have ha1j : adjGet (adj.set i (adjGet adj i ++ [j])) j = adjGet adj j :=
    adjGet_set_ne adj i j _ hij
  by_cases hkj : k = j
  · subst hkj
    rw [adjGet_set_self _ k _ (by simpa [List.length_set] using hj), ha1j]
    simp only [List.mem_append, List.mem_singleton]
    constructor
    · rintro (h | h)
      · exact Or.inl h
      · exact Or.inr (Or.inr ⟨trivial, h⟩)
    · rintro (h | ⟨hki, _⟩ | ⟨_, hmi⟩)
      · exact Or.inl h
      · exact absurd hki.symm hij
      · exact Or.inr hmi
  · rw [adjGet_set_ne _ j k _ (fun h => hkj h.symm)]
    by_cases hki : k = i
    · subst hki
      rw [adjGet_set_self adj k _ hi]
      simp only [List.mem_append, List.mem_singleton]
      constructor
      · rintro (h | h)
        · exact Or.inl h
        · exact Or.inr (Or.inl ⟨trivial, h⟩)
      · rintro (h | ⟨_, hmj⟩ | ⟨hkj2, _⟩)
        · exact Or.inl h
        · exact Or.inr hmj
        · exact absurd hkj2 hkj
    · rw [adjGet_set_ne adj i k _ (fun h => hki h.symm)]
      constructor
      · intro h
        exact Or.inl h
      · rintro (h | ⟨hki2, _⟩ | ⟨hkj2, _⟩)
        · exact h
        · exact absurd hki2 hki
        · exact absurd hkj2 hkj

/-- The first-two-dimensions connectedness test at a pair of list
indices. -/
def connAt {S : Type} (K : Kernel S) (parts : List (NamedPart S))
    (i j : ℕ) : Bool :=
  match parts.get? i, parts.get? j with
  | some p, some q => are_parts_connected K p.solid q.solid
  | _, _ => false

/-- The unordered connectedness test (the double loop only evaluates
each pair once, with the lower index first). -/
def connSym {S : Type} (K : Kernel S) (parts : List (NamedPart S))
    (i j : ℕ) : Bool :=
  if i < j then connAt K parts i j else connAt K parts j i

/-- The adjacency-graph edge relation of the connectivity check. -/
def edgeRel {S : Type} (K : Kernel S) (parts : List (NamedPart S))
    (a b : ℕ) : Prop :=
  a < parts.length ∧ b < parts.length ∧ a ≠ b ∧ connSym K parts a b = true

theorem buildAdj_length {S : Type} (K : Kernel S)
    (parts : List (NamedPart S)) :
    (buildAdj K parts).length = parts.length := by
  unfold buildAdj
  have hfold : ∀ (ps : List ((ℕ × NamedPart S) × (ℕ × NamedPart S)))
      (adj : List (List ℕ)),
      (ps.foldl (fun a pq =>
        if are_parts_connected K pq.1.2.solid pq.2.2.solid then
          pushEdge a pq.1.1 pq.2.1
        else a) adj).length = adj.length := by
    intro ps
    induction ps with
    | nil => intro adj; rfl
    | cons x t ih =>
      intro adj
      rw [List.foldl_cons, ih]
      by_cases h : are_parts_connected K x.1.2.solid x.2.2.solid = true
      · simp [h, pushEdge_length]
      · simp [h]
  rw [hfold]
  simp

theorem foldPairs_mem {S : Type} (K : Kernel S) (n : ℕ) :
    ∀ (ps : List ((ℕ × NamedPart S) × (ℕ × NamedPart S)))
      (adj : List (List ℕ)),
      adj.length = n →
      (∀ x ∈ ps, x.1.1 < n ∧ x.2.1 < n ∧ x.1.1 ≠ x.2.1) →
      ∀ k m, (m ∈ adjGet (ps.foldl (fun a pq =>
          if are_parts_connected K pq.1.2.solid pq.2.2.solid then
            pushEdge a pq.1.1 pq.2.1
          else a) adj) k ↔
        (m ∈ adjGet adj k ∨ ∃ x ∈ ps,
          are_parts_connected K x.1.2.solid x.2.2.solid = true ∧
          ((k = x.1.1 ∧ m = x.2.1) ∨ (k = x.2.1 ∧ m = x.1.1)))) := by
  intro ps
  induction ps with
  | nil =>
    intro adj hlen hx k m
    simp
  | cons x t ih =>
    intro adj hlen hx k m
    rw [List.foldl_cons]
    by_cases hconn : are_parts_connected K x.1.2.solid x.2.2.solid = true
    · rw [if_pos hconn]
      rw [ih (pushEdge adj x.1.1 x.2.1)
        (by rw [pushEdge_length]; exact hlen)
        (fun y hy => hx y (List.mem_cons_of_mem _ hy)) k m]
      have hxh := hx x (List.mem_cons_self x t)
      rw [adjGet_pushEdge adj x.1.1 x.2.1
        (by rw [hlen]; exact hxh.1) (by rw [hlen]; exact hxh.2.1) hxh.2.2 k m]
      constructor
      · rintro ((h | h | h) | ⟨y, hy, hyc, hyp⟩)
        · exact Or.inl h
        · exact Or.inr ⟨x, List.mem_cons_self x t, hconn, Or.inl h⟩
        · exact Or.inr ⟨x, List.mem_cons_self x t, hconn, Or.inr h⟩
        · exact Or.inr ⟨y, List.mem_cons_of_mem _ hy, hyc, hyp⟩
      · rintro (h | ⟨y, hy, hyc, hyp⟩)
        · exact Or.inl (Or.inl h)
        · rcases List.mem_cons.mp hy with rfl | hy'
          · rcases hyp with h' | h'
            · exact Or.inl (Or.inr (Or.inl h'))
            · exact Or.inl (Or.inr (Or.inr h'))
          · exact Or.inr ⟨y, hy', hyc, hyp⟩
    · rw [if_neg hconn]
      rw [ih adj hlen (fun y hy => hx y (List.mem_cons_of_mem _ hy)) k m]
      constructor
      · rintro (h | ⟨y, hy, hyc, hyp⟩)
        · exact Or.inl h
        · exact Or.inr ⟨y, List.mem_cons_of_mem _ hy, hyc, hyp⟩
      · rintro (h | ⟨y, hy, hyc, hyp⟩)
        · exact Or.inl h
        · rcases List.mem_cons.mp hy with rfl | hy'
          · exact absurd hyc hconn
          · exact Or.inr ⟨y, hy', hyc, hyp⟩

/-- The adjacency built by the double loop has an edge `k → m` exactly
for distinct in-range indices whose parts are connected (the pair
evaluated once, lower index first). -/
theorem buildAdj_mem {S : Type} (K : Kernel S) (parts : List (NamedPart S))
    (k m : ℕ) :
    m ∈ adjGet (buildAdj K parts) k ↔ edgeRel K parts k m := by
  unfold buildAdj
  rw [foldPairs_mem K parts.length (enumPairs parts)
    (List.replicate parts.length []) (by simp)
    (fun x hx => by
      rw [mem_enumPairs] at hx
      have hj : x.2.1 < parts.length := by
        have := hx.2.2
        exact (List.get?_eq_some.mp this).1
      exact ⟨lt_trans hx.1 hj, hj, Nat.ne_of_lt hx.1⟩) k m]
  rw [adjGet_replicate]
  simp only [List.not_mem_nil, false_or]
  constructor
  · rintro ⟨x, hx, hconn, hp⟩
    rw [mem_enumPairs] at hx
    obtain ⟨hlt, hgi, hgj⟩ := hx
    have hj : x.2.1 < parts.length := (List.get?_eq_some.mp hgj).1
    have hi : x.1.1 < parts.length := lt_trans hlt hj
    rcases hp with ⟨rfl, rfl⟩ | ⟨rfl, rfl⟩
    · refine ⟨hi, hj, Nat.ne_of_lt hlt, ?_⟩
      unfold connSym
      rw [if_pos hlt]
      unfold connAt
      rw [hgi, hgj]
      exact hconn
    · refine ⟨hj, hi, (Nat.ne_of_lt hlt).symm, ?_⟩
      unfold connSym
      rw [if_neg (by omega)]
      unfold connAt
      rw [hgi, hgj]
      exact hconn
  · rintro ⟨hk, hm, hkm, hsym⟩
    rcases Nat.lt_or_ge k m with hlt | hge
    · have hp := List.get?_eq_get (l := parts) (n := k) hk
      have hq := List.get?_eq_get (l := parts) (n := m) hm
      refine ⟨((k, parts.get ⟨k, hk⟩), (m, parts.get ⟨m, hm⟩)),
        (mem_enumPairs _ _).mpr ⟨hlt, hp, hq⟩, ?_, Or.inl ⟨rfl, rfl⟩⟩
      unfold connSym at hsym
      rw [if_pos hlt] at hsym
      unfold connAt at hsym
      rw [hp, hq] at hsym
      exact hsym
    · have hlt : m < k := by omega
      have hp := List.get?_eq_get (l := parts) (n := m) hm
      have hq := List.get?_eq_get (l := parts) (n := k) hk
      refine ⟨((m, parts.get ⟨m, hm⟩), (k, parts.get ⟨k, hk⟩)),
        (mem_enumPairs _ _).mpr ⟨hlt, hp, hq⟩, ?_, Or.inr ⟨rfl, rfl⟩⟩
      unfold connSym at hsym
      rw [if_neg (by omega)] at hsym
      unfold connAt at hsym
      rw [hp, hq] at hsym
      exact hsym

/-- The detached-part names computed by the connectivity check: names
of the positions the BFS did not reach. -/
def detachedNames {S : Type} (K : Kernel S) (parts : List (NamedPart S)) :
    List String :=
  ((bfsVisited (buildAdj K parts) parts.length).enum.filter
    (fun iv => !iv.2)).map (fun iv => partNameAt parts iv.1)

theorem all_id_iff_visAt (vis : List Bool) :
    vis.all (fun b => b) = true ↔ ∀ i, i < vis.length → visAt vis i = true := by
  rw [List.all_eq_true]
  constructor
  · intro h i hi
    unfold visAt
    rw [List.getD_eq_getElem?_getD, List.getElem?_eq_getElem hi]
    simpa using h _ (List.getElem_mem hi)
  · intro h b hb
    obtain ⟨i, hi, rfl⟩ := List.getElem_of_mem hb
    have hv := h i hi
    unfold visAt at hv
    rw [List.getD_eq_getElem?_getD, List.getElem?_eq_getElem hi] at hv
    simpa using hv

/-- C5: the connectivity check is SKIPPED on zero parts, trivially
PASSED on one part, and otherwise reflects breadth-first reachability
from the first part over the connected-pair adjacency graph: it PASSES
with component count 1 when every part is reached, and otherwise FAILS
listing the unreached ("detached") part names in the short message
when there are at most 3, or just their count; a pair whose distance
computation errors out is treated as not connected. -/
theorem test_connectivity_spec {S : Type} (K : Kernel S) (result : Scene S) :
    (∀ s1 s2 : S, K.dist s1 s2 = none →
      are_parts_connected K s1 s2 = false) ∧
    (extract_solids result = [] →
      test_connectivity K result =
        ⟨("Part Connectivity"), TestStatus.skipped, ("No parts found to test"),
         none, none⟩) ∧
    ((extract_solids result).length = 1 →
      test_connectivity K result =
        ⟨("Part Connectivity"), TestStatus.passed,
         ("Single part is inherently connected"), none, none⟩) ∧
    (2 ≤ (extract_solids result).length →
      (∀ i, i < (extract_solids result).length →
        (visAt (bfsVisited (buildAdj K (extract_solids result))
            (extract_solids result).length) i = true ↔
          Relation.ReflTransGen (edgeRel K (extract_solids result)) 0 i)) ∧
      ((∀ i, i < (extract_solids result).length →
          Relation.ReflTransGen (edgeRel K (extract_solids result)) 0 i) →
        test_connectivity K result =
          ⟨("Part Connectivity"), TestStatus.passed,
           ("All ") ++ toString (extract_solids result).length ++
             (" parts are connected"),
           some (Details.componentCount 1), none⟩) ∧
      ((∃ i, i < (extract_solids result).length ∧
          ¬ Relation.ReflTransGen (edgeRel K (extract_solids result)) 0 i) →
        ((test_connectivity K result).status = TestStatus.failed ∧
         (test_connectivity K result).details =
           some (Details.disconnectedParts
             (detachedNames K (extract_solids result))) ∧
         ((detachedNames K (extract_solids result)).length ≤ 3 →
           (test_connectivity K result).message =
             ("Detached parts: ") ++ String.intercalate (", ")
               ((detachedNames K (extract_solids result)).map quoteS)) ∧
         (3 < (detachedNames K (extract_solids result)).length →
           (test_connectivity K result).message =
             ("Found ") ++
               toString (detachedNames K (extract_solids result)).length ++
               (" detached parts"))))) := by
  refine ⟨?_, ?_, ?_, ?_⟩
  · intro s1 s2 h
    simp [are_parts_connected, h]
  · intro h
    unfold test_connectivity
    rw [h]
    rfl
  · intro h
    have hnonnil : extract_solids result ≠ [] := by
      intro hnil
      rw [hnil] at h
      simp at h
    unfold test_connectivity
    rw [if_neg (by simpa [List.isEmpty_iff] using hnonnil), if_pos h]
  · intro h2
    have hnonnil : extract_solids result ≠ [] := by
      intro hnil
      rw [hnil] at h2
      simp at h2
    have hlen1 : ¬ (extract_solids result).length = 1 := by omega
    have h0 : 0 < (extract_solids result).length := by omega
    have hHn : ∀ a b, b ∈ adjGet (buildAdj K (extract_solids result)) a →
        b < (extract_solids result).length := by
      intro a b hb
      exact ((buildAdj_mem K _ a b).mp hb).2.1
    obtain ⟨hlenf, hiff⟩ := bfsVisited_correct
      (buildAdj K (extract_solids result)) (extract_solids result).length
      (buildAdj_length K _) hHn h0
    have hEq : ∀ i, i < (extract_solids result).length →
        (visAt (bfsVisited (buildAdj K (extract_solids result))
            (extract_solids result).length) i = true ↔
          Relation.ReflTransGen (edgeRel K (extract_solids result)) 0 i) := by
      intro i hi
      rw [hiff i hi]
      constructor
      · intro hr
        exact Relation.ReflTransGen.mono
          (fun a b hab => (buildAdj_mem K _ a b).mp hab) hr
      · intro hr
        exact Relation.ReflTransGen.mono
          (fun a b hab => (buildAdj_mem K _ a b).mpr hab) hr
    refine ⟨hEq, ?_, ?_⟩
    · intro hall
      have hallvis : (bfsVisited (buildAdj K (extract_solids result))
          (extract_solids result).length).all (fun b => b) = true := by
        rw [all_id_iff_visAt]
        intro i hi
        rw [hlenf] at hi
        exact (hEq i hi).mpr (hall i hi)
      unfold test_connectivity
      rw [if_neg (by simpa [List.isEmpty_iff] using hnonnil), if_neg hlen1,
        if_pos hallvis]
    · rintro ⟨i0, hi0, hnr⟩
      have hnall : ¬ (bfsVisited (buildAdj K (extract_solids result))
          (extract_solids result).length).all (fun b => b) = true := by
        intro hall
        rw [all_id_iff_visAt] at hall
        exact hnr ((hEq i0 hi0).mp (hall i0 (by rw [hlenf]; exact hi0)))
      have htc : test_connectivity K result =
          ⟨("Part Connectivity"), TestStatus.failed,
           (if (detachedNames K (extract_solids result)).length ≤ 3 then
              ("Detached parts: ") ++ String.intercalate (", ")
                ((detachedNames K (extract_solids result)).map quoteS)
            else
              ("Found ") ++
                toString (detachedNames K (extract_solids result)).length ++
                (" detached parts")),
           some (Details.disconnectedParts
             (detachedNames K (extract_solids result))),
           some (("The following parts are not connected to the main assembly (starting from first part):\n") ++
             String.intercalate ("\n")
               ((detachedNames K (extract_solids result)).map
                 (fun nm => ("- ") ++ nm)))⟩ := by
        unfold test_connectivity
        rw [if_neg (by simpa [List.isEmpty_iff] using hnonnil), if_neg hlen1,
          if_neg hnall]
        rfl
      rw [htc]
      refine ⟨rfl, rfl, ?_, ?_⟩
      · intro h3
        simp only [if_pos h3]
      · intro h3
        simp only [if_neg (by omega : ¬ (detachedNames K (extract_solids result)).length ≤ 3)]

/-- Witness for C5: two extracted parts whose distance oracle always
errors — no edges, so part 1 is detached and the check fails. -/
theorem test_connectivity_spec_witness :
    (2 ≤ (extract_solids sceneTwoCubes).length) ∧
    (∃ i, i < (extract_solids sceneTwoCubes).length ∧
      ¬ Relation.ReflTransGen
        (edgeRel natKernelIsect (extract_solids sceneTwoCubes)) 0 i) ∧
    ((test_connectivity natKernelIsect sceneTwoCubes).status =
        TestStatus.failed ∧
     (test_connectivity natKernelIsect sceneTwoCubes).details =
       some (Details.disconnectedParts
         (detachedNames natKernelIsect (extract_solids sceneTwoCubes))) ∧
     ((detachedNames natKernelIsect (extract_solids sceneTwoCubes)).length ≤ 3 →
       (test_connectivity natKernelIsect sceneTwoCubes).message =
         ("Detached parts: ") ++ String.intercalate (", ")
           ((detachedNames natKernelIsect
             (extract_solids sceneTwoCubes)).map quoteS)) ∧
     (3 < (detachedNames natKernelIsect (extract_solids sceneTwoCubes)).length →
       (test_connectivity natKernelIsect sceneTwoCubes).message =
         ("Found ") ++
           toString (detachedNames natKernelIsect
             (extract_solids sceneTwoCubes)).length ++
           (" detached parts"))) := by
  have hnoedge : ∀ a b,
      ¬ edgeRel natKernelIsect (extract_solids sceneTwoCubes) a b := by
    rintro a b ⟨_, _, _, hsym⟩
    have hconnAt : ∀ x y,
        connAt natKernelIsect (extract_solids sceneTwoCubes) x y = false := by
      intro x y
      unfold connAt
      cases (extract_solids sceneTwoCubes).get? x with
      | none => rfl
      | some p =>
        cases (extract_solids sceneTwoCubes).get? y with
        | none => rfl
        | some q => rfl
    unfold connSym at hsym
    by_cases hab : a < b
    · rw [if_pos hab, hconnAt a b] at hsym
      exact absurd hsym (by simp)
    · rw [if_neg hab, hconnAt b a] at hsym
      exact absurd hsym (by simp)
  have hnr : ¬ Relation.ReflTransGen
      (edgeRel natKernelIsect (extract_solids sceneTwoCubes)) 0 1 := by
    intro h
    rcases Relation.ReflTransGen.cases_head h with h0 | ⟨c, hc, _⟩
    · exact absurd h0 (by norm_num)
    · exact hnoedge 0 c hc
  have hex : ∃ i, i < (extract_solids sceneTwoCubes).length ∧
      ¬ Relation.ReflTransGen
        (edgeRel natKernelIsect (extract_solids sceneTwoCubes)) 0 i :=
    ⟨1, by decide, hnr⟩
  exact ⟨by decide, hex,
    ((test_connectivity_spec natKernelIsect sceneTwoCubes).2.2.2
      (by decide)).2.2 hex⟩
